import Mathlib

/-!
# pdp-frogs: the role protocol of `bio_model.c`

A shallow embedding of `src/bio_model.c` (role dispatcher, aggregator loop, agent lifecycle and
hop loop, coordinator bootstrapping and loop) together with theorems about it.

Modelling conventions.

* A C `int` (and `time_t`) is a Lean `Int`.  Signed overflow is undefined behaviour in C, so the
  model describes the executions in which no arithmetic operation overflows.  The C operator `%`
  truncates towards zero and is therefore `Int.tmod`.
* `float` coordinates are an abstract type parameter `F`; no claim computes with them.
* Calls into the pool, the transport, the clock and the random functions (`getRank`,
  `getActiveWorkers`, `masterPoll`, `time`, `rand`, `frogHop`, `getCellFromPosition`,
  `willGiveBirth`, `willCatchDisease`, `willDie`, `startWorkerProcess`, `workerSleep`, `MPI_Recv`)
  are external.  What such a call returns is an input of the loop iteration that makes the call
  (one record of answers per iteration); what the loop does to the outside world (messages sent,
  lines printed, external decisions consulted) is recorded as a list of events.
* The constants of `bio_model.h` (which is not part of the sources) are parameters, collected in
  `bio_model_h`; the globals set by `init_default_values` are collected in `Globals`.
-/

namespace BioModel

/-! ## Constants and globals -/

/-- Constants declared in `bio_model.h`; their values are not visible in `bio_model.c`. -/
structure bio_model_h where
  TYPE_MASTER : Int
  TYPE_CELL : Int
  TYPE_FROG : Int
  TYPE_UNUSED : Int
  PRINT_CELL : Int
  STOP_CELL : Int
  STOP_FROGS : Int
  HOP_TAG : Int
  INF_TAG : Int
  POS_TAG : Int
  deriving DecidableEq, Repr

/-- Global configuration variables of the program. -/
structure Globals where
  NUM_OF_CELLS : Int
  INIT_FROGS : Int
  INIT_INFECTED : Int
  YEARS : Int
  deriving DecidableEq, Repr

/-- Values assigned by `init_default_values`. -/
def init_default_values : Globals :=
  { NUM_OF_CELLS := 16, INIT_FROGS := 34, INIT_INFECTED := 4, YEARS := 100 }

/-! ## Role dispatcher -/

/-- Function `getType(status)`; `rank` is the value returned by `getRank()`. -/
def getType (H : bio_model_h) (G : Globals) (rank : Int) (status : Int) : Int :=
  if status = 2 then H.TYPE_MASTER
  else if status = 1 ∧ rank ≤ G.NUM_OF_CELLS then H.TYPE_CELL
  else if status = 1 then H.TYPE_FROG
  else H.TYPE_UNUSED

/-- Function `getAliveFrogs()`; `activeWorkers` is the value returned by `getActiveWorkers()`. -/
def getAliveFrogs (G : Globals) (activeWorkers : Int) : Int :=
  activeWorkers - G.NUM_OF_CELLS

/-! ## Aggregator (cell) loop -/

/-- Struct `cell_t` as used by `newCell` and `cellCode`. -/
structure cell_t where
  populationInflux : Int
  infectionLevel : Int
  deriving DecidableEq, Repr

/-- Function `newCell()`. -/
def newCell : cell_t :=
  { populationInflux := 0, infectionLevel := 0 }

/-- Local state of `cellCode` at the head of its `while(1)` loop. -/
structure CellLoop where
  my_cell : cell_t
  stop_frog : Int
  deriving DecidableEq, Repr

/-- State of `cellCode` when it enters its loop. -/
def cellInit : CellLoop :=
  { my_cell := newCell, stop_frog := 0 }

/-- One message delivered by the `MPI_Recv` of `cellCode`: the received integer and
`status.MPI_SOURCE`. -/
structure CellMsg where
  frog_infection : Int
  source : Int
  deriving DecidableEq, Repr

/-- Observable actions of one `cellCode` iteration. -/
inductive CellEvent where
  | print (rank populationInflux infectionLevel : Int)
  | send (v0 v1 : Int) (dest : Int) (tag : Int)
  deriving DecidableEq, Repr

/-- Result of one `cellCode` iteration: the events, and the next loop state, or `none` when the
loop is left through `break`. -/
structure CellResult where
  events : List CellEvent
  next : Option CellLoop
  deriving DecidableEq, Repr

/-- Body of the `while(1)` loop of `cellCode` for one received message. -/
def cellIteration (H : bio_model_h) (rank : Int) (s : CellLoop) (m : CellMsg) : CellResult :=
  if m.frog_infection = H.STOP_CELL then
    { events := [], next := none }
  else if m.frog_infection = H.PRINT_CELL then
    { events := [.print rank s.my_cell.populationInflux s.my_cell.infectionLevel],
      next := some { s with my_cell := { populationInflux := 0, infectionLevel := 0 } } }
  else if m.frog_infection = H.STOP_FROGS then
    { events := [], next := some { s with stop_frog := 1 } }
  else
    let c : cell_t :=
      { populationInflux := s.my_cell.populationInflux + 1,
        infectionLevel := s.my_cell.infectionLevel + m.frog_infection }
    let send_to_frog : Int × Int :=
      if s.stop_frog ≠ 0 then (-1, -1) else (c.populationInflux, c.infectionLevel)
    { events := [.send send_to_frog.1 send_to_frog.2 m.source H.HOP_TAG],
      next := some { s with my_cell := c } }

/-- One executed iteration of a run of `cellCode`: the loop state at its head, the message it
received, and what it did. -/
structure CellRecord where
  pre : CellLoop
  msg : CellMsg
  events : List CellEvent
  deriving DecidableEq, Repr

/-- Iterations executed by `cellCode` from loop state `s` on the incoming messages `ms`; the run
ends at the `break` taken on `STOP_CELL`, later messages are not received. -/
def cellRun (H : bio_model_h) (rank : Int) : CellLoop → List CellMsg → List CellRecord
  | _, [] => []
  | s, m :: ms =>
    { pre := s, msg := m, events := (cellIteration H rank s m).events } ::
      (match (cellIteration H rank s m).next with
       | some s' => cellRun H rank s' ms
       | none => [])

/-- Replies (payload pairs of the `send_mesg` calls) contained in a list of events. -/
def cellReplies : List CellEvent → List (Int × Int)
  | [] => []
  | .send v0 v1 _ _ :: es => (v0, v1) :: cellReplies es
  | .print _ _ _ :: es => cellReplies es

/-! ## Agent (frog) hop loop -/

/-- Struct `point_t`: a planar position with coordinates of the abstract float type `F`. -/
structure point_t (F : Type) where
  x : F
  y : F
  deriving DecidableEq, Repr

/-- Struct `frog_t` as used by `newFrog` and `frogCode`; `infLevel` is the array `int infLevel[500]`,
a list that `newFrog` creates with 500 entries. -/
structure frog_t (F : Type) where
  pos : point_t F
  infected : Int
  hops : Int
  sum_popInflux : Int
  sum_infLevel : Int
  infLevel : List Int
  deriving DecidableEq, Repr

/-- Function `newFrog(x, y)`. -/
def newFrog {F : Type} (x y : F) : frog_t F :=
  { pos := { x := x, y := y },
    infected := 0,
    hops := 0,
    sum_popInflux := 0,
    sum_infLevel := 0,
    infLevel := List.replicate 500 0 }

/-- Locals of `frogCode` that live across iterations of its inner `while(1)` loop. -/
structure FrogLoop (F : Type) where
  start_pos : point_t F
  my_frog : frog_t F
  deriving DecidableEq, Repr

/-- Answers of the outside world to the calls one inner-loop iteration of `frogCode` can make.
An answer is read only if the iteration makes the call. -/
structure FrogTick (F : Type) where
  /-- whether `rand() < 0.666666666*((double)RAND_MAX + 1.0)` -/
  moves : Bool
  /-- position written by `frogHop` -/
  hop_pos : point_t F
  /-- result of `getCellFromPosition` -/
  cellnum : Int
  /-- the two integers received into `cell_values` -/
  cell_values : Int × Int
  /-- truth value of `willGiveBirth(...)` -/
  birth : Bool
  /-- result of `startWorkerProcess()` -/
  child : Int
  /-- truth value of `willCatchDisease(...)` -/
  disease : Bool
  /-- truth value of `willDie(...)` -/
  die : Bool
  /-- result of `workerSleep()` -/
  sleep : Int
  deriving DecidableEq, Repr

/-- Observable actions of one inner-loop iteration of `frogCode`.  The float argument of
`willGiveBirth` is `sum_popInflux/300.0` and that of `willCatchDisease` is `sum_infLevel/500.0`;
the event records the integer numerator. -/
inductive FrogEvent (F : Type) where
  | frogHop (src dst : point_t F)
  | send_infected (infected : Int) (dest : Int) (tag : Int)
  | recv_cell_values (src : Int) (v0 v1 : Int)
  | willGiveBirth (sum_popInflux : Int)
  | startWorkerProcess (child : Int)
  | send_pos (pos : point_t F) (dest : Int) (tag : Int)
  | willCatchDisease (sum_infLevel : Int)
  | willDie
  | free
  | workerSleep
  deriving DecidableEq, Repr

/-- How one inner-loop iteration of `frogCode` ends: the loop goes on with new locals, or it is
left by the `break` after the reply test (line 215), or by the `break` of the death path
(line 250); the integer is the new `workerStatus`. -/
inductive FrogNext (F : Type) where
  | running (s : FrogLoop F)
  | retired_reply (workerStatus : Int)
  | retired_death (workerStatus : Int)
  deriving DecidableEq, Repr

/-- Result of one inner-loop iteration of `frogCode`. -/
structure FrogResult (F : Type) where
  events : List (FrogEvent F)
  next : FrogNext F
  deriving DecidableEq, Repr

/-- Index `my_frog->hops % 500` into the array `infLevel`. -/
def infIndex (hops : Int) : Int :=
  Int.tmod hops 500

/-- Retire test on the reply: `cell_values[0] + cell_values[1] < 0`. -/
def retireTest (cell_values : Int × Int) : Prop :=
  cell_values.1 + cell_values.2 < 0

instance (cell_values : Int × Int) : Decidable (retireTest cell_values) := by
  unfold retireTest; infer_instance

/-- Lines 218-221: fold the reply into the frog. -/
def foldReply {F : Type} (f : frog_t F) (cell_values : Int × Int) : frog_t F :=
  let i := (infIndex f.hops).toNat
  { f with
    sum_popInflux := f.sum_popInflux + cell_values.1,
    sum_infLevel := f.sum_infLevel - f.infLevel.getD i 0 + cell_values.2,
    infLevel := f.infLevel.set i cell_values.2 }

/-- Guard of the birth evaluation: `(hops >= 300) && (hops % 300 == 0)`. -/
def birthDue (hops : Int) : Prop :=
  hops ≥ 300 ∧ Int.tmod hops 300 = 0

instance (hops : Int) : Decidable (birthDue hops) := by
  unfold birthDue; infer_instance

/-- Lines 223-234: birth evaluation. -/
def birthStep {F : Type} (H : bio_model_h) (f : frog_t F) (t : FrogTick F) :
    List (FrogEvent F) × frog_t F :=
  if birthDue f.hops then
    ((.willGiveBirth f.sum_popInflux) ::
        (if t.birth then [.startWorkerProcess t.child, .send_pos f.pos t.child H.POS_TAG] else []),
      { f with sum_popInflux := 0 })
  else ([], f)

/-- Guard of the infection evaluation: `hops >= 500 && !infected`. -/
def diseaseDue (hops infected : Int) : Prop :=
  hops ≥ 500 ∧ infected = 0

instance (hops infected : Int) : Decidable (diseaseDue hops infected) := by
  unfold diseaseDue; infer_instance

/-- Lines 236-241: infection evaluation. -/
def diseaseStep {F : Type} (f : frog_t F) (t : FrogTick F) : List (FrogEvent F) × frog_t F :=
  if diseaseDue f.hops f.infected then
    ([.willCatchDisease f.sum_infLevel], if t.disease then { f with infected := 1 } else f)
  else ([], f)

/-- Guard of the death evaluation: `(hops >= 700) && (hops % 700 == 0) && infected`. -/
def deathDue (hops infected : Int) : Prop :=
  hops ≥ 700 ∧ Int.tmod hops 700 = 0 ∧ infected ≠ 0

instance (hops infected : Int) : Decidable (deathDue hops infected) := by
  unfold deathDue; infer_instance

/-- The frog as it stands when the death guard of line 243 is evaluated, in an iteration that
moves and whose reply does not retire the agent. -/
def atDeathCheck {F : Type} (H : bio_model_h) (s : FrogLoop F) (t : FrogTick F) : frog_t F :=
  (diseaseStep (birthStep H (foldReply { s.my_frog with pos := t.hop_pos } t.cell_values) t).2 t).2

/-- Body of the inner `while(1)` loop of `frogCode` (lines 203-258). -/
def frogIteration {F : Type} (H : bio_model_h) (s : FrogLoop F) (t : FrogTick F) : FrogResult F :=
  if t.moves then
    let f1 : frog_t F := { s.my_frog with pos := t.hop_pos }
    let ev1 : List (FrogEvent F) :=
      [.frogHop s.start_pos t.hop_pos,
       .send_infected f1.infected t.cellnum H.HOP_TAG,
       .recv_cell_values t.cellnum t.cell_values.1 t.cell_values.2]
    if retireTest t.cell_values then
      { events := ev1 ++ [.free, .workerSleep], next := .retired_reply t.sleep }
    else
      let f2 := foldReply f1 t.cell_values
      let b := birthStep H f2 t
      let d := diseaseStep b.2 t
      let f4 := d.2
      if deathDue f4.hops f4.infected then
        if t.die then
          { events := ev1 ++ b.1 ++ d.1 ++ [.willDie, .free, .workerSleep],
            next := .retired_death t.sleep }
        else
          { events := ev1 ++ b.1 ++ d.1 ++ [.willDie],
            next := .running { start_pos := f4.pos, my_frog := { f4 with hops := f4.hops + 1 } } }
      else
        { events := ev1 ++ b.1 ++ d.1,
          next := .running { start_pos := f4.pos, my_frog := { f4 with hops := f4.hops + 1 } } }
  else
    { events := [], next := .running s }

/-- Loop state of a frog that has just been created at position `(x, y)` by `newFrog` and has
received the infection flag `infected` (0 unless a root frog is told otherwise). -/
def frogInit {F : Type} (x y : F) (infected : Int) : FrogLoop F :=
  { start_pos := { x := x, y := y }, my_frog := { newFrog x y with infected := infected } }

/-- One executed inner-loop iteration of `frogCode`: the locals at its head, the answers it got,
and what it did. -/
structure FrogRecord (F : Type) where
  pre : FrogLoop F
  tick : FrogTick F
  events : List (FrogEvent F)
  deriving DecidableEq, Repr

/-- Iterations executed by the inner loop of `frogCode` from the locals `s` on the answers `ts`;
the run ends at a `break`. -/
def frogRun {F : Type} (H : bio_model_h) : FrogLoop F → List (FrogTick F) → List (FrogRecord F)
  | _, [] => []
  | s, t :: ts =>
    { pre := s, tick := t, events := (frogIteration H s t).events } ::
      (match (frogIteration H s t).next with
       | .running s' => frogRun H s' ts
       | _ => [])

/-- Where the inner loop of `frogCode` stands after the answers `ts`: still running with some
locals, or left by one of the two `break`s. -/
def frogAfter {F : Type} (H : bio_model_h) : FrogLoop F → List (FrogTick F) → FrogNext F
  | s, [] => .running s
  | s, t :: ts =>
    match (frogIteration H s t).next with
    | .running s' => frogAfter H s' ts
    | r => r

/-- Infection levels (second reply component) of the hops made in a list of answers, in order. -/
def hopLevels {F : Type} (ts : List (FrogTick F)) : List Int :=
  (ts.filter (fun t => t.moves)).map (fun t => t.cell_values.2)

/-- Whether an event is a `willGiveBirth` call. -/
def isBirthCall {F : Type} : FrogEvent F → Bool
  | .willGiveBirth _ => true
  | _ => false

/-- Whether an event is a `willCatchDisease` call. -/
def isDiseaseCall {F : Type} : FrogEvent F → Bool
  | .willCatchDisease _ => true
  | _ => false

/-- Whether an event is a `willDie` call. -/
def isDeathCall {F : Type} : FrogEvent F → Bool
  | .willDie => true
  | _ => false

/-- Number of `willGiveBirth` calls among a list of events. -/
def birthCalls {F : Type} (es : List (FrogEvent F)) : Nat :=
  es.countP isBirthCall

/-- Number of `willCatchDisease` calls among a list of events. -/
def diseaseCalls {F : Type} (es : List (FrogEvent F)) : Nat :=
  es.countP isDiseaseCall

/-- Number of `willDie` calls among a list of events. -/
def deathCalls {F : Type} (es : List (FrogEvent F)) : Nat :=
  es.countP isDeathCall

/-- Hop counts at the head of the iterations of a run that move. -/
def hopCounts {F : Type} (run : List (FrogRecord F)) : List Int :=
  (run.filter (fun r => r.tick.moves)).map (fun r => r.pre.my_frog.hops)

/-- Hop counts at the head of the iterations of a run that call `willGiveBirth`. -/
def birthHops {F : Type} (run : List (FrogRecord F)) : List Int :=
  (run.filter (fun r => decide (0 < birthCalls r.events))).map (fun r => r.pre.my_frog.hops)

/-- Number of `willGiveBirth` calls in a whole run. -/
def birthTotal {F : Type} (run : List (FrogRecord F)) : Nat :=
  (run.map (fun r => birthCalls r.events)).sum

/-- Relation between a frog and the infection levels `L` of the hops it has completed: the hop
count is the number of levels, the array has 500 entries whose sum is `sum_infLevel` and is the
sum of the last 500 levels (all of them if there are fewer), and the slot that will be
overwritten `k` hops from now holds the level received `500 - k` hops ago (0 if there is none). -/
def windowInv {F : Type} (f : frog_t F) (L : List Int) : Prop :=
  f.hops = (L.length : Int) ∧
  f.infLevel.length = 500 ∧
  f.sum_infLevel = f.infLevel.sum ∧
  f.infLevel.sum = (L.drop (L.length - 500)).sum ∧
  ∀ k < 500, f.infLevel.getD ((L.length + k) % 500) 0 =
    if 500 ≤ L.length + k then L.getD (L.length + k - 500) 0 else 0

/-! ## Coordinator (master) loop -/

/-- Locals of `masterCode` that live across iterations of its `while` loop. -/
structure MasterLoop where
  curr_year : Int
  print_time : Int
  year_time : Int
  deriving DecidableEq, Repr

/-- Locals of `masterCode` when it enters its loop; `now_print` and `now_year` are the clock
readings of lines 80 and 81 (`print_secs = 1`, `year_secs = 2`). -/
def masterInit (now_print now_year : Int) : MasterLoop :=
  { curr_year := 0, print_time := now_print + 1, year_time := now_year + 2 }

/-- Answers of the outside world to the calls of one `masterCode` loop iteration, in program
order.  Every `workers_` field is a value of `getActiveWorkers()`, every `now_` field a value of
`time(NULL)`.  An answer is read only if the iteration makes the call. -/
structure MasterTick where
  /-- loop condition, line 83 -/
  workers_cond : Int
  /-- result of `masterPoll()`, line 85 -/
  poll : Int
  /-- year timer test, line 87 -/
  now_year : Int
  /-- year timer reset, line 98 -/
  now_year_set : Int
  /-- end-of-simulation report, line 104 -/
  workers_end : Int
  /-- print timer test, line 113 -/
  now_print : Int
  /-- alive report, line 115 -/
  workers_print : Int
  /-- print timer reset, line 116 -/
  now_print_set : Int
  /-- extinction test, line 119 -/
  workers_dead : Int
  /-- safeguard test, line 125 -/
  workers_cap : Int
  deriving DecidableEq, Repr

/-- Observable actions of `masterCode` in and after its loop. -/
inductive MasterEvent where
  | print_year (curr_year : Int)
  | send (value : Int) (dest : Int) (tag : Int)
  | print_end (alive : Int)
  | print_alive (alive : Int)
  | print_all_dead
  | print_more_than_100
  | MPI_Abort (errorcode : Int)
  deriving DecidableEq, Repr

/-- How one `masterCode` loop iteration ends: the loop goes on, it is left by the `break` of
line 122, or the program is terminated by `MPI_Abort` (which does not return). -/
inductive MasterNext where
  | running (s : MasterLoop)
  | left_break (s : MasterLoop)
  | aborted
  deriving DecidableEq, Repr

/-- Result of one `masterCode` loop iteration. -/
structure MasterResult where
  events : List MasterEvent
  next : MasterNext
  deriving DecidableEq, Repr

/-- The loop `for (i=0; i<NUM_OF_CELLS; i++) send_mesg(&value, 1, MPI_INT, i+1, HOP_TAG, ...)`. -/
def broadcast (H : bio_model_h) (G : Globals) (value : Int) : List MasterEvent :=
  (List.range G.NUM_OF_CELLS.toNat).map
    (fun (i : Nat) => MasterEvent.send value ((i : Int) + 1) H.HOP_TAG)

/-- Lines 87-99: the year timer. -/
def yearStep (H : bio_model_h) (G : Globals) (s : MasterLoop) (t : MasterTick) :
    List MasterEvent × MasterLoop :=
  if t.now_year ≥ s.year_time then
    (.print_year s.curr_year :: broadcast H G H.PRINT_CELL,
      { s with curr_year := s.curr_year + 1, year_time := t.now_year_set + 2 })
  else ([], s)

/-- Lines 101-111: the end of the simulation. -/
def endStep (H : bio_model_h) (G : Globals) (s : MasterLoop) (t : MasterTick) :
    List MasterEvent × MasterLoop :=
  if s.curr_year = G.YEARS then
    (.print_end (getAliveFrogs G t.workers_end) :: broadcast H G H.STOP_FROGS,
      { s with curr_year := s.curr_year + 1 })
  else ([], s)

/-- Lines 113-117: the print timer. -/
def printStep (G : Globals) (s : MasterLoop) (t : MasterTick) : List MasterEvent × MasterLoop :=
  if t.now_print ≥ s.print_time ∧ s.curr_year ≤ G.YEARS then
    ([.print_alive (getAliveFrogs G t.workers_print)], { s with print_time := t.now_print_set + 1 })
  else ([], s)

/-- Value of `curr_year` when the test `curr_year == YEARS` of line 101 is evaluated. -/
def yearAtCheck (H : bio_model_h) (G : Globals) (s : MasterLoop) (t : MasterTick) : Int :=
  (yearStep H G s t).2.curr_year

/-- Locals of `masterCode` when the tests of lines 119 and 125 are evaluated. -/
def atSafeguard (H : bio_model_h) (G : Globals) (s : MasterLoop) (t : MasterTick) : MasterLoop :=
  (printStep G (endStep H G (yearStep H G s t).2 t).2 t).2

/-- Test of line 119: `(getAliveFrogs() == 0) && (curr_year < YEARS)`. -/
def extinct (H : bio_model_h) (G : Globals) (s : MasterLoop) (t : MasterTick) : Prop :=
  getAliveFrogs G t.workers_dead = 0 ∧ (atSafeguard H G s t).curr_year < G.YEARS

instance (H : bio_model_h) (G : Globals) (s : MasterLoop) (t : MasterTick) :
    Decidable (extinct H G s t) := by
  unfold extinct; infer_instance

/-- Body of the `while` loop of `masterCode` (lines 85-129). -/
def masterIteration (H : bio_model_h) (G : Globals) (s : MasterLoop) (t : MasterTick) :
    MasterResult :=
  let y := yearStep H G s t
  let e := endStep H G y.2 t
  let p := printStep G e.2 t
  if extinct H G s t then
    { events := y.1 ++ e.1 ++ p.1 ++ [.print_all_dead], next := .left_break p.2 }
  else if getAliveFrogs G t.workers_cap ≥ 100 then
    { events := y.1 ++ e.1 ++ p.1 ++ [.print_more_than_100, .MPI_Abort 1], next := .aborted }
  else
    { events := y.1 ++ e.1 ++ p.1, next := .running p.2 }

/-- One executed iteration of the loop of `masterCode`: the locals at its head, the answers it
got, and what it did. -/
structure MasterRecord where
  pre : MasterLoop
  tick : MasterTick
  events : List MasterEvent
  deriving DecidableEq, Repr

/-- Iterations executed by the loop of `masterCode` from the locals `s` on the answers `ts`; the
run ends when the loop condition `getAliveFrogs() > 0` fails, at the `break`, or at the abort. -/
def masterRun (H : bio_model_h) (G : Globals) : MasterLoop → List MasterTick → List MasterRecord
  | _, [] => []
  | s, t :: ts =>
    if getAliveFrogs G t.workers_cond > 0 then
      { pre := s, tick := t, events := (masterIteration H G s t).events } ::
        (match (masterIteration H G s t).next with
         | .running s' => masterRun H G s' ts
         | _ => [])
    else []

/-- How `masterCode` stands after the answers `ts`: still in its loop, returned after the final
`STOP_CELL` broadcast of lines 132-136 (the events of that broadcast), or aborted. -/
inductive MasterEnd where
  | looping (s : MasterLoop)
  | returned (s : MasterLoop) (events : List MasterEvent)
  | aborted
  deriving DecidableEq, Repr

/-- Outcome of the loop of `masterCode` and of the code after it. -/
def masterAfter (H : bio_model_h) (G : Globals) : MasterLoop → List MasterTick → MasterEnd
  | s, [] => .looping s
  | s, t :: ts =>
    if getAliveFrogs G t.workers_cond > 0 then
      match (masterIteration H G s t).next with
      | .running s' => masterAfter H G s' ts
      | .left_break s' => .returned s' (broadcast H G H.STOP_CELL)
      | .aborted => .aborted
    else .returned s (broadcast H G H.STOP_CELL)

/-- The `send_mesg` calls with payload `value` among a list of events. -/
def sendsOf (value : Int) (es : List MasterEvent) : List MasterEvent :=
  es.filter (fun e => match e with
    | .send v _ _ => decide (v = value)
    | _ => false)

/-! ## Coordinator bootstrapping -/

/-- Observable actions of the bootstrapping part of `masterCode` (lines 59-76). -/
inductive BootEvent where
  | startWorkerProcess (workerPid : Int)
  | print_cell (number workerPid : Int)
  | print_frog (number workerPid infected : Int)
  | send (value : Int) (dest : Int) (tag : Int)
  deriving DecidableEq, Repr

/-- A loop `for (i=0; i<n; i++)` whose iteration `i` performs the actions `body i`. -/
def forLoop {α : Type} (n : Int) (body : Nat → List α) : List α :=
  (List.range n.toNat).flatMap body

/-- Body of the loop of lines 60-64; `pid k` is the result of the call number `k` (counted
from 0) of `startWorkerProcess()` made by the coordinator. -/
def bootCellBody (pid : Nat → Int) (i : Nat) : List BootEvent :=
  [.startWorkerProcess (pid i), .print_cell ((i : Int) + 1) (pid i)]

/-- Infection flag computed in iteration `i` of the loop of lines 67-76. -/
def bootInfected (G : Globals) (i : Nat) : Int :=
  if (i : Int) < G.INIT_INFECTED then 1 else 0

/-- Body of the loop of lines 67-76; the cells have used the first `NUM_OF_CELLS` calls of
`startWorkerProcess()`. -/
def bootFrogBody (H : bio_model_h) (G : Globals) (pid : Nat → Int) (i : Nat) : List BootEvent :=
  [.startWorkerProcess (pid (G.NUM_OF_CELLS.toNat + i)),
   .print_frog ((i : Int) + 1) (pid (G.NUM_OF_CELLS.toNat + i)) (bootInfected G i),
   .send (bootInfected G i) (pid (G.NUM_OF_CELLS.toNat + i)) H.INF_TAG]

/-- Lines 59-76 of `masterCode`: the loop that starts the cells, then the loop that starts the
frogs. -/
def bootstrap (H : bio_model_h) (G : Globals) (pid : Nat → Int) : List BootEvent :=
  forLoop G.NUM_OF_CELLS (bootCellBody pid) ++ forLoop G.INIT_FROGS (bootFrogBody H G pid)

/-- Results of the `startWorkerProcess()` calls among a list of events, in order. -/
def spawned (es : List BootEvent) : List Int :=
  es.filterMap (fun e => match e with
    | .startWorkerProcess w => some w
    | _ => none)

/-- The `send_mesg` calls among a list of events, as triples (value, destination, tag). -/
def bootSends (es : List BootEvent) : List (Int × Int × Int) :=
  es.filterMap (fun e => match e with
    | .send v d g => some (v, d, g)
    | _ => none)

/-! ## Agent (frog) lifecycle start -/

/-- Answers of the outside world to the calls at the start of one pass of the outer
`while (workerStatus)` loop of `frogCode` (lines 185-197).  An answer is read only if the call
is made. -/
structure FrogBirth (F : Type) where
  /-- result of `getCommandData()` -/
  parent : Int
  /-- position written by `frogHop(0, 0, ...)` -/
  hop_pos : point_t F
  /-- position received from the parent with `POS_TAG` -/
  recv_pos : point_t F
  /-- integer received from rank 0 with `INF_TAG` -/
  recv_infected : Int
  deriving DecidableEq, Repr

/-- Lines 185-197 of `frogCode`: the locals with which the inner loop is entered.  `prev` are
the locals left behind by the previous pass of the outer loop on the same process (`none` for
the first pass); its frog has been freed. -/
def frogStart {F : Type} (_prev : Option (FrogLoop F)) (b : FrogBirth F) : FrogLoop F :=
  let start_pos : point_t F := if b.parent = 0 then b.hop_pos else b.recv_pos
  let my_frog : frog_t F := newFrog start_pos.x start_pos.y
  { start_pos := start_pos,
    my_frog := if b.parent = 0 then { my_frog with infected := b.recv_infected } else my_frog }

/-- The outer loop of `frogCode` after the inner loop was left at the locals `s` with result
`n`: a new pass starts if the new `workerStatus` is not 0, otherwise `frogCode` returns. -/
def frogRestart {F : Type} (s : FrogLoop F) (n : FrogNext F) (b : FrogBirth F) :
    Option (FrogLoop F) :=
  match n with
  | .running _ => none
  | .retired_reply w => if w ≠ 0 then some (frogStart (some s) b) else none
  | .retired_death w => if w ≠ 0 then some (frogStart (some s) b) else none

/-- Influx values (first reply component) of the hops made in a list of answers, in order. -/
def hopInfluxes {F : Type} (ts : List (FrogTick F)) : List Int :=
  (ts.filter (fun t => t.moves)).map (fun t => t.cell_values.1)

/-- Number of completed hops at which the influx accumulator, for a frog with `n` completed
hops, was last empty: 0 up to the first birth evaluation, afterwards the hop after the last
evaluation. -/
def influxStart (n : Nat) : Nat :=
  if n ≤ 300 then 0 else 300 * ((n - 1) / 300) + 1

/-! ## Concrete inputs -/

/-- A sample assignment of the constants of `bio_model.h` (pairwise different roles, commands
different from the flags 0 and 1), used to evaluate the model on concrete inputs. -/
def sampleHeader : bio_model_h :=
  { TYPE_MASTER := 0, TYPE_CELL := 1, TYPE_FROG := 2, TYPE_UNUSED := 3,
    PRINT_CELL := -2, STOP_CELL := -3, STOP_FROGS := -4,
    HOP_TAG := 10, INF_TAG := 11, POS_TAG := 12 }

/-- The four role constants are pairwise different. -/
def rolesDistinct (H : bio_model_h) : Prop :=
  H.TYPE_MASTER ≠ H.TYPE_CELL ∧ H.TYPE_MASTER ≠ H.TYPE_FROG ∧ H.TYPE_MASTER ≠ H.TYPE_UNUSED ∧
    H.TYPE_CELL ≠ H.TYPE_FROG ∧ H.TYPE_CELL ≠ H.TYPE_UNUSED ∧ H.TYPE_FROG ≠ H.TYPE_UNUSED

instance (H : bio_model_h) : Decidable (rolesDistinct H) := by
  unfold rolesDistinct; infer_instance

/-- A received integer that `cellCode` treats as an agent report: none of the three commands. -/
def isReport (H : bio_model_h) (v : Int) : Prop :=
  v ≠ H.STOP_CELL ∧ v ≠ H.PRINT_CELL ∧ v ≠ H.STOP_FROGS

instance (H : bio_model_h) (v : Int) : Decidable (isReport H v) := by
  unfold isReport; infer_instance

/-- An answer record for a hop that changes nothing but the counters: the agent moves, the
reply is `(1, 0)`, and every random decision is negative. -/
def quietTick : FrogTick Int :=
  { moves := true, hop_pos := { x := 1, y := 1 }, cellnum := 5, cell_values := (1, 0),
    birth := false, child := 40, disease := false, die := false, sleep := 0 }

/-- The answer record `quietTick` with the reply replaced by `cv`. -/
def replyTick (cv : Int × Int) : FrogTick Int :=
  { quietTick with cell_values := cv }

/-- A frog with the given hop count and infection flag and otherwise the fields of `newFrog`. -/
def sampleFrog (hops infected : Int) : FrogLoop Int :=
  { start_pos := { x := 0, y := 0 },
    my_frog := { newFrog 0 0 with hops := hops, infected := infected } }

/-- A short list of answer records: two hops, a tick without movement, a third hop. -/
def sampleTicks : List (FrogTick Int) :=
  [quietTick, replyTick (2, 3), { quietTick with moves := false }, replyTick (4, 7)]

/-- The locals of `frogCode` after the answers `sampleTicks`, starting from a fresh frog. -/
def sampleAfter : FrogLoop Int :=
  { start_pos := { x := 1, y := 1 },
    my_frog :=
      { pos := { x := 1, y := 1 }, infected := 0, hops := 3, sum_popInflux := 7,
        sum_infLevel := 10,
        infLevel := (((List.replicate 500 0).set 0 0).set 1 3).set 2 7 } }

/-- Answers of one `masterCode` iteration in which every `getActiveWorkers()` call returns
`workers` and every `time(NULL)` call returns `now`. -/
def sampleMasterTick (workers now : Int) : MasterTick :=
  { workers_cond := workers, poll := 1, now_year := now, now_year_set := now,
    workers_end := workers, now_print := now, workers_print := workers, now_print_set := now,
    workers_dead := workers, workers_cap := workers }

/-- Globals with 2 cells and 1 simulated year, for short runs of the coordinator. -/
def sampleGlobals : Globals :=
  { NUM_OF_CELLS := 2, INIT_FROGS := 3, INIT_INFECTED := 1, YEARS := 1 }

/-- Globals with 2 cells and `YEARS = 0`. -/
def zeroYearGlobals : Globals :=
  { NUM_OF_CELLS := 2, INIT_FROGS := 3, INIT_INFECTED := 1, YEARS := 0 }

/-- The locals after one hop of `sampleFrog 700 1` on the answers `quietTick`. -/
def sampleInfectedAfter : FrogLoop Int :=
  { start_pos := { x := 1, y := 1 },
    my_frog :=
      { pos := { x := 1, y := 1 }, infected := 1, hops := 701, sum_popInflux := 1,
        sum_infLevel := 0, infLevel := (List.replicate 500 0).set 200 0 } }

/-- Results of `startWorkerProcess()` in a pool that hands out the ranks 1, 2, 3, .. -/
def samplePid (k : Nat) : Int :=
  (k : Int) + 1

/-- An answer record for a hop of an infected frog into a cell whose counters were 0: the
agent moves, the reply is `(1, 1)`, and every random decision is negative. -/
def infectedTick : FrogTick Int :=
  { quietTick with cell_values := (1, 1) }

/-- The answer record `infectedTick` with a positive answer of `willDie`. -/
def dyingTick : FrogTick Int :=
  { infectedTick with die := true }

set_option maxRecDepth 100000

/-! ## Theorems: role dispatcher -/

/-- C10: with pairwise different role constants, `getType` returns the coordinator role iff
`status = 2`, the aggregator role iff `status = 1` and `rank <= NUM_OF_CELLS`, the agent role iff
`status = 1` and `rank > NUM_OF_CELLS`, and the idle role iff the status is neither 1 nor 2; the
result is determined by `status`, `rank` and `NUM_OF_CELLS` alone. -/
theorem getType_roles (H : bio_model_h) (G : Globals) (rank status : Int)
    (hd : rolesDistinct H) :
    (getType H G rank status = H.TYPE_MASTER ↔ status = 2) ∧
    (getType H G rank status = H.TYPE_CELL ↔ status = 1 ∧ rank ≤ G.NUM_OF_CELLS) ∧
    (getType H G rank status = H.TYPE_FROG ↔ status = 1 ∧ G.NUM_OF_CELLS < rank) ∧
    (getType H G rank status = H.TYPE_UNUSED ↔ status ≠ 2 ∧ status ≠ 1) ∧
    (∀ G' : Globals, G'.NUM_OF_CELLS = G.NUM_OF_CELLS →
      getType H G' rank status = getType H G rank status) := by
  obtain ⟨h1, h2, h3, h4, h5, h6⟩ := hd
  refine ⟨?_, ?_, ?_, ?_, ?_⟩
  · unfold getType
    split_ifs <;> constructor <;> intro h <;> first | rfl | omega
  · unfold getType
    split_ifs <;> constructor <;> intro h <;> first | rfl | omega
  · unfold getType
    split_ifs <;> constructor <;> intro h <;> first | rfl | omega
  · unfold getType
    split_ifs <;> constructor <;> intro h <;> first | rfl | omega
  · intro G' hG
    unfold getType
    rw [hG]

/-- Witness of C10: the sample constants are pairwise different, and rank 3 with status 1 and
16 cells is an aggregator. -/
theorem getType_roles_witness :
    rolesDistinct sampleHeader ∧
    (getType sampleHeader init_default_values 3 1 = sampleHeader.TYPE_CELL ↔
      (1 : Int) = 1 ∧ (3 : Int) ≤ init_default_values.NUM_OF_CELLS) :=
  ⟨by decide, (getType_roles sampleHeader init_default_values 3 1 (by decide)).2.1⟩

/-! ## Theorems: aggregator loop -/

/-- While the closing flag is set, an iteration of `cellCode` keeps it set and every reply it
sends is the pair `(-1, -1)`; a report is answered by exactly that one message. -/
theorem cellIteration_closing (H : bio_model_h) (rank : Int) (s : CellLoop) (m : CellMsg)
    (hs : s.stop_frog ≠ 0) :
    (∀ s', (cellIteration H rank s m).next = some s' → s'.stop_frog ≠ 0) ∧
    (∀ p ∈ cellReplies (cellIteration H rank s m).events, p = (-1, -1)) ∧
    (isReport H m.frog_infection →
      (cellIteration H rank s m).events = [.send (-1) (-1) m.source H.HOP_TAG]) := by
  unfold cellIteration isReport
  refine ⟨?_, ?_, ?_⟩
  · intro s' h
    split_ifs at h <;> (injection h with h; subst h; first | exact hs | simp)
  · intro p hp
    split_ifs at hp <;> simp_all [cellReplies]
  · rintro ⟨h1, h2, h3⟩
    simp [h1, h2, h3, hs]

/-- A run of `cellCode` that starts with the closing flag set has it set at the head of every
iteration. -/
theorem cellRun_closing (H : bio_model_h) (rank : Int) (ms : List CellMsg) :
    ∀ s : CellLoop, s.stop_frog ≠ 0 → ∀ r ∈ cellRun H rank s ms,
      r.pre.stop_frog ≠ 0 ∧ r.events = (cellIteration H rank r.pre r.msg).events := by
  induction ms with
  | nil => intro s _ r hr; simp [cellRun] at hr
  | cons m ms ih =>
    intro s hs r hr
    simp only [cellRun, List.mem_cons] at hr
    rcases hr with hr | hr
    · subst hr; exact ⟨hs, rfl⟩
    · cases hn : (cellIteration H rank s m).next with
      | none => rw [hn] at hr; simp at hr
      | some s' =>
        rw [hn] at hr
        exact ih s' ((cellIteration_closing H rank s m hs).1 s' hn) r hr

/-- C2: let `cellCode` handle a `STOP_FROGS` command (a value different from `STOP_CELL` and
`PRINT_CELL`) and then any sequence of messages.  In every iteration after the command the
closing flag is set at the head and still set at the end, every reply sent is the pair
`(-1, -1)`, and an agent report is answered by exactly one message, `(-1, -1)` to its sender. -/
theorem closing_replies_are_sentinel (H : bio_model_h) (rank : Int) (s : CellLoop) (src : Int)
    (ms : List CellMsg) (h1 : H.STOP_FROGS ≠ H.STOP_CELL) (h2 : H.STOP_FROGS ≠ H.PRINT_CELL) :
    ∀ r ∈ (cellRun H rank s ({ frog_infection := H.STOP_FROGS, source := src } :: ms)).tail,
      r.pre.stop_frog ≠ 0 ∧
      (∀ s', (cellIteration H rank r.pre r.msg).next = some s' → s'.stop_frog ≠ 0) ∧
      (∀ p ∈ cellReplies r.events, p = (-1, -1)) ∧
      (isReport H r.msg.frog_infection →
        r.events = [.send (-1) (-1) r.msg.source H.HOP_TAG]) := by
  intro r hr
  have hstep : (cellIteration H rank s { frog_infection := H.STOP_FROGS, source := src }).next
      = some { s with stop_frog := 1 } := by
    simp [cellIteration, h1, h2]
  simp only [cellRun, hstep, List.tail_cons] at hr
  obtain ⟨hp, he⟩ := cellRun_closing H rank ms { s with stop_frog := 1 } (by simp) r hr
  obtain ⟨a, b, c⟩ := cellIteration_closing H rank r.pre r.msg hp
  refine ⟨hp, a, ?_, ?_⟩
  · rw [he]; exact b
  · rw [he]; exact c

/-- Witness of C2: with the sample constants, a fresh aggregator that handles `STOP_FROGS`, then
a report with flag 1 from rank 20, a `PRINT_CELL` and a report with flag 0 from rank 21, answers
both reports with `(-1, -1)`. -/
theorem closing_replies_are_sentinel_witness :
    sampleHeader.STOP_FROGS ≠ sampleHeader.STOP_CELL ∧
    sampleHeader.STOP_FROGS ≠ sampleHeader.PRINT_CELL ∧
    (cellRun sampleHeader 3 cellInit
      [⟨sampleHeader.STOP_FROGS, 0⟩, ⟨1, 20⟩, ⟨sampleHeader.PRINT_CELL, 0⟩, ⟨0, 21⟩]).tail.map
        (fun r => cellReplies r.events) = [[(-1, -1)], [], [(-1, -1)]] ∧
    ∀ r ∈ (cellRun sampleHeader 3 cellInit
      ({ frog_infection := sampleHeader.STOP_FROGS, source := 0 } ::
        [⟨1, 20⟩, ⟨sampleHeader.PRINT_CELL, 0⟩, ⟨0, 21⟩])).tail,
      r.pre.stop_frog ≠ 0 ∧
      (∀ s', (cellIteration sampleHeader 3 r.pre r.msg).next = some s' → s'.stop_frog ≠ 0) ∧
      (∀ p ∈ cellReplies r.events, p = (-1, -1)) ∧
      (isReport sampleHeader r.msg.frog_infection →
        r.events = [.send (-1) (-1) r.msg.source sampleHeader.HOP_TAG]) :=
  ⟨by decide, by decide, by decide,
    closing_replies_are_sentinel sampleHeader 3 cellInit 0
      [⟨1, 20⟩, ⟨sampleHeader.PRINT_CELL, 0⟩, ⟨0, 21⟩] (by decide) (by decide)⟩

/-- C3 (as stated) fails: with the closing flag set, a report with flag 1 changes the counters
from `(5, 2)` to `(6, 3)`. -/
theorem closing_counters_unchanged_counterexample :
    isReport sampleHeader 1 ∧
    (cellIteration sampleHeader 3
        { my_cell := { populationInflux := 5, infectionLevel := 2 }, stop_frog := 1 }
        { frog_infection := 1, source := 20 }).next
      = some { my_cell := { populationInflux := 6, infectionLevel := 3 }, stop_frog := 1 } ∧
    ({ populationInflux := 6, infectionLevel := 3 } : cell_t)
      ≠ { populationInflux := 5, infectionLevel := 2 } := by
  decide

/-- C3 (amended): with the closing flag set, handling an agent report with value `v` increases
`populationInflux` by 1 and `infectionLevel` by `v`, exactly as without the flag; the flag is
kept and only the reply is replaced by `(-1, -1)`. -/
theorem closing_report_still_counts (H : bio_model_h) (rank : Int) (s : CellLoop) (m : CellMsg)
    (hs : s.stop_frog ≠ 0) (hm : isReport H m.frog_infection) :
    cellIteration H rank s m =
      { events := [.send (-1) (-1) m.source H.HOP_TAG],
        next := some
          { my_cell :=
              { populationInflux := s.my_cell.populationInflux + 1,
                infectionLevel := s.my_cell.infectionLevel + m.frog_infection },
            stop_frog := s.stop_frog } } := by
  obtain ⟨h1, h2, h3⟩ := hm
  simp [cellIteration, h1, h2, h3, hs]

/-- Witness of C3 (amended) on the input of the counterexample. -/
theorem closing_report_still_counts_witness :
    cellIteration sampleHeader 3
        { my_cell := { populationInflux := 5, infectionLevel := 2 }, stop_frog := 1 }
        { frog_infection := 1, source := 20 } =
      { events := [.send (-1) (-1) 20 sampleHeader.HOP_TAG],
        next := some
          { my_cell := { populationInflux := 5 + 1, infectionLevel := 2 + 1 },
            stop_frog := 1 } } :=
  closing_report_still_counts sampleHeader 3
    { my_cell := { populationInflux := 5, infectionLevel := 2 }, stop_frog := 1 }
    { frog_infection := 1, source := 20 } (by decide) (by decide)

/-! ## Theorems: agent hop loop, one iteration -/

/-- An iteration that does not move does nothing. -/
theorem frogIteration_still {F : Type} (H : bio_model_h) (s : FrogLoop F) (t : FrogTick F)
    (hm : t.moves = false) :
    frogIteration H s t = { events := [], next := .running s } := by
  simp [frogIteration, hm]

/-- An iteration that moves and whose reply passes the retire test frees the frog and parks. -/
theorem frogIteration_retire {F : Type} (H : bio_model_h) (s : FrogLoop F) (t : FrogTick F)
    (hm : t.moves = true) (hr : retireTest t.cell_values) :
    frogIteration H s t =
      { events := [.frogHop s.start_pos t.hop_pos,
                   .send_infected s.my_frog.infected t.cellnum H.HOP_TAG,
                   .recv_cell_values t.cellnum t.cell_values.1 t.cell_values.2,
                   .free, .workerSleep],
        next := .retired_reply t.sleep } := by
  simp [frogIteration, hm, hr]

/-- An iteration that moves and whose reply fails the retire test folds the reply, evaluates
birth and infection, and then either dies or goes on with one more hop counted. -/
theorem frogIteration_fold {F : Type} (H : bio_model_h) (s : FrogLoop F) (t : FrogTick F)
    (hm : t.moves = true) (hr : ¬ retireTest t.cell_values) :
    frogIteration H s t =
      { events :=
          [.frogHop s.start_pos t.hop_pos,
           .send_infected s.my_frog.infected t.cellnum H.HOP_TAG,
           .recv_cell_values t.cellnum t.cell_values.1 t.cell_values.2] ++
          (birthStep H (foldReply { s.my_frog with pos := t.hop_pos } t.cell_values) t).1 ++
          (diseaseStep
            (birthStep H (foldReply { s.my_frog with pos := t.hop_pos } t.cell_values) t).2 t).1 ++
          (if deathDue (atDeathCheck H s t).hops (atDeathCheck H s t).infected then
            (if t.die then [.willDie, .free, .workerSleep] else [.willDie]) else []),
        next :=
          if deathDue (atDeathCheck H s t).hops (atDeathCheck H s t).infected ∧ t.die = true then
            .retired_death t.sleep
          else
            .running
              { start_pos := (atDeathCheck H s t).pos,
                my_frog := { atDeathCheck H s t with hops := (atDeathCheck H s t).hops + 1 } } } := by
  unfold frogIteration atDeathCheck
  simp only [hm, hr, if_true, if_false]
  split_ifs <;> simp_all

/-- The birth and infection steps do not change the hop count. -/
theorem atDeathCheck_hops {F : Type} (H : bio_model_h) (s : FrogLoop F) (t : FrogTick F) :
    (atDeathCheck H s t).hops = s.my_frog.hops := by
  unfold atDeathCheck diseaseStep birthStep foldReply
  split_ifs <;> rfl

/-- How often infection risk is evaluated in one iteration: once if the agent moves, the reply
does not retire it and `hops >= 500` with the infected flag 0, otherwise not at all. -/
theorem diseaseCalls_frogIteration {F : Type} (H : bio_model_h) (s : FrogLoop F)
    (t : FrogTick F) :
    diseaseCalls (frogIteration H s t).events =
      if t.moves = true ∧ ¬ retireTest t.cell_values ∧
          diseaseDue s.my_frog.hops s.my_frog.infected then 1 else 0 := by
  cases hm : t.moves with
  | false => simp [frogIteration_still H s t hm, diseaseCalls]
  | true =>
    by_cases hr : retireTest t.cell_values
    · simp [frogIteration_retire H s t hm hr, diseaseCalls, isDiseaseCall, hr]
    · rw [frogIteration_fold H s t hm hr]
      simp only [diseaseCalls, birthStep, diseaseStep, foldReply]
      split_ifs <;> simp_all [List.countP_cons, isDiseaseCall]

/-- How often birth is evaluated in one iteration: once if the agent moves, the reply does not
retire it and `hops >= 300` with `hops % 300 == 0`, otherwise not at all. -/
theorem birthCalls_frogIteration {F : Type} (H : bio_model_h) (s : FrogLoop F)
    (t : FrogTick F) :
    birthCalls (frogIteration H s t).events =
      if t.moves = true ∧ ¬ retireTest t.cell_values ∧ birthDue s.my_frog.hops then 1 else 0 := by
  cases hm : t.moves with
  | false => simp [frogIteration_still H s t hm, birthCalls]
  | true =>
    by_cases hr : retireTest t.cell_values
    · simp [frogIteration_retire H s t hm hr, birthCalls, isBirthCall, hr]
    · rw [frogIteration_fold H s t hm hr]
      simp only [birthCalls, birthStep, diseaseStep, foldReply]
      split_ifs <;> simp_all [List.countP_cons, isBirthCall]

/-- How often death risk is evaluated in one iteration: once if the agent moves, the reply does
not retire it and the death guard holds for the frog as it stands at that guard, otherwise not
at all. -/
theorem deathCalls_frogIteration {F : Type} (H : bio_model_h) (s : FrogLoop F)
    (t : FrogTick F) :
    deathCalls (frogIteration H s t).events =
      if t.moves = true ∧ ¬ retireTest t.cell_values ∧
          deathDue s.my_frog.hops (atDeathCheck H s t).infected then 1 else 0 := by
  cases hm : t.moves with
  | false => simp [frogIteration_still H s t hm, deathCalls]
  | true =>
    by_cases hr : retireTest t.cell_values
    · simp [frogIteration_retire H s t hm hr, deathCalls, isDeathCall, hr]
    · rw [frogIteration_fold H s t hm hr, atDeathCheck_hops]
      simp only [deathCalls, birthStep, diseaseStep, foldReply]
      split_ifs <;> simp_all [List.countP_cons, isDeathCall]

/-- The reply test of line 211 in an iteration that moves: the loop is left there, with the
frog freed and the process parked, exactly if the two reply values sum to less than 0, as they
do for `(-1, -1)`; otherwise the reply is folded into the frog and the iteration ends in the
death path or with one more hop counted. -/
theorem retire_iff_sum_negative {F : Type} (H : bio_model_h) (s : FrogLoop F) (t : FrogTick F)
    (hm : t.moves = true) :
    ((∃ w, (frogIteration H s t).next = .retired_reply w) ↔
      t.cell_values.1 + t.cell_values.2 < 0) ∧
    (t.cell_values = (-1, -1) → (frogIteration H s t).next = .retired_reply t.sleep) ∧
    (t.cell_values.1 + t.cell_values.2 < 0 →
      frogIteration H s t =
        { events := [.frogHop s.start_pos t.hop_pos,
                     .send_infected s.my_frog.infected t.cellnum H.HOP_TAG,
                     .recv_cell_values t.cellnum t.cell_values.1 t.cell_values.2,
                     .free, .workerSleep],
          next := .retired_reply t.sleep }) ∧
    (¬ t.cell_values.1 + t.cell_values.2 < 0 →
      (frogIteration H s t).next =
        if deathDue (atDeathCheck H s t).hops (atDeathCheck H s t).infected ∧ t.die = true then
          .retired_death t.sleep
        else
          .running
            { start_pos := (atDeathCheck H s t).pos,
              my_frog :=
                { atDeathCheck H s t with hops := (atDeathCheck H s t).hops + 1 } }) := by
  refine ⟨⟨?_, ?_⟩, ?_, ?_, ?_⟩
  · rintro ⟨w, hw⟩
    by_contra hr
    have hr' : ¬ retireTest t.cell_values := hr
    rw [frogIteration_fold H s t hm hr'] at hw
    simp only at hw
    split_ifs at hw
  · intro hr
    exact ⟨t.sleep, by rw [frogIteration_retire H s t hm hr]⟩
  · intro hv
    have hr : retireTest t.cell_values := by rw [hv]; decide
    rw [frogIteration_retire H s t hm hr]
  · intro hr
    exact frogIteration_retire H s t hm hr
  · intro hr
    have hr' : ¬ retireTest t.cell_values := hr
    rw [frogIteration_fold H s t hm hr']

/-- C6: in every iteration of the hop loop, `willDie` is called only if the hop count `h`
satisfies `h >= 700` and `h % 700 == 0` and the infected flag is set when the death guard is
evaluated; if that flag is 0, `willDie` is not called and the iteration does not leave the loop
through the death path, whatever `willDie` would answer. -/
theorem death_only_at_700_while_infected {F : Type} (H : bio_model_h) (s : FrogLoop F)
    (t : FrogTick F) :
    (0 < deathCalls (frogIteration H s t).events →
      s.my_frog.hops ≥ 700 ∧ Int.tmod s.my_frog.hops 700 = 0 ∧
        (atDeathCheck H s t).infected ≠ 0) ∧
    ((atDeathCheck H s t).infected = 0 →
      deathCalls (frogIteration H s t).events = 0 ∧
        ∀ w, (frogIteration H s t).next ≠ .retired_death w) ∧
    ((∃ w, (frogIteration H s t).next = .retired_death w) →
      0 < deathCalls (frogIteration H s t).events) := by
  have key : ∀ w, (frogIteration H s t).next = .retired_death w →
      t.moves = true ∧ ¬ retireTest t.cell_values ∧
        deathDue s.my_frog.hops (atDeathCheck H s t).infected := by
    intro w hw
    cases hm : t.moves with
    | false => rw [frogIteration_still H s t hm] at hw; cases hw
    | true =>
      by_cases hr : retireTest t.cell_values
      · rw [frogIteration_retire H s t hm hr] at hw; cases hw
      · rw [frogIteration_fold H s t hm hr, atDeathCheck_hops] at hw
        simp only at hw
        split_ifs at hw with hd
        exact ⟨rfl, hr, hd.1⟩
  rw [deathCalls_frogIteration]
  refine ⟨?_, ?_, ?_⟩
  · intro h
    split_ifs at h with hc
    · exact hc.2.2
    · omega
  · intro h0
    constructor
    · rw [if_neg]
      rintro ⟨_, _, _, _, hi⟩
      exact hi h0
    · intro w hw
      exact (key w hw).2.2.2.2 h0
  · rintro ⟨w, hw⟩
    rw [if_pos (key w hw)]
    exact Nat.one_pos

/-- Witness of C6: an infected frog at hop count 700 that moves and gets the reply `(1, 0)`
has its death risk evaluated; an uninfected one at the same hop count does not. -/
theorem death_only_at_700_while_infected_witness :
    0 < deathCalls (frogIteration sampleHeader (sampleFrog 700 1) quietTick).events ∧
    ((sampleFrog 700 1).my_frog.hops ≥ 700 ∧ Int.tmod (sampleFrog 700 1).my_frog.hops 700 = 0 ∧
      (atDeathCheck sampleHeader (sampleFrog 700 1) quietTick).infected ≠ 0) ∧
    (atDeathCheck sampleHeader (sampleFrog 700 0) quietTick).infected = 0 ∧
    (deathCalls (frogIteration sampleHeader (sampleFrog 700 0) quietTick).events = 0 ∧
      ∀ w, (frogIteration sampleHeader (sampleFrog 700 0) quietTick).next ≠ .retired_death w) :=
  ⟨by decide,
    (death_only_at_700_while_infected sampleHeader (sampleFrog 700 1) quietTick).1 (by decide),
    by decide,
    (death_only_at_700_while_infected sampleHeader (sampleFrog 700 0) quietTick).2.1 (by decide)⟩

/-- A hop of an uninfected frog on the answers `quietTick` goes on with one more hop counted and
the frog still uninfected. -/
theorem quietTick_step (H : bio_model_h) (s : FrogLoop Int) (h0 : s.my_frog.infected = 0) :
    ∃ s', (frogIteration H s quietTick).next = .running s' ∧
      s'.my_frog.hops = s.my_frog.hops + 1 ∧ s'.my_frog.infected = 0 := by
  have hi : (atDeathCheck H s quietTick).infected = 0 := by
    unfold atDeathCheck diseaseStep birthStep foldReply
    split_ifs <;> simp_all [quietTick]
  rw [frogIteration_fold H s quietTick rfl (by decide)]
  refine ⟨_, if_neg ?_, ?_, hi⟩
  · rintro ⟨⟨_, _, hd⟩, _⟩
    exact hd hi
  · simp [atDeathCheck_hops]

/-- Any number of hops on the answers `quietTick` keeps an uninfected frog running. -/
theorem quietTick_run (H : bio_model_h) (n : Nat) :
    ∀ s : FrogLoop Int, s.my_frog.infected = 0 →
      ∃ s', frogAfter H s (List.replicate n quietTick) = .running s' ∧
        s'.my_frog.hops = s.my_frog.hops + n ∧ s'.my_frog.infected = 0 := by
  induction n with
  | zero => intro s h0; exact ⟨s, rfl, by simp, h0⟩
  | succ n ih =>
    intro s h0
    obtain ⟨s1, e1, e2, e3⟩ := quietTick_step H s h0
    obtain ⟨s2, f1, f2, f3⟩ := ih s1 e3
    refine ⟨s2, ?_, ?_, f3⟩
    · simp only [List.replicate_succ, frogAfter, e1]
      exact f1
    · rw [f2, e2]; push_cast; ring

/-- C7 (as stated) fails: an uninfected agent that has completed 501 hops from its fresh state
is at hop count 501, not 500, and its next hop consults `willCatchDisease`. -/
theorem disease_only_at_500_counterexample :
    ∃ s : FrogLoop Int,
      frogAfter sampleHeader (frogInit 0 0 0) (List.replicate 501 quietTick) = .running s ∧
      s.my_frog.hops = 501 ∧ s.my_frog.infected = 0 ∧
      diseaseCalls (frogIteration sampleHeader s quietTick).events = 1 := by
  obtain ⟨s, h1, h2, h3⟩ := quietTick_run sampleHeader 501 (frogInit 0 0 0) rfl
  refine ⟨s, h1, ?_, h3, ?_⟩
  · rw [h2]; rfl
  · rw [diseaseCalls_frogIteration, if_pos]
    refine ⟨rfl, by decide, ?_, h3⟩
    rw [h2]; decide

/-- C7 (amended): in an iteration at hop count `h`, `willCatchDisease` is consulted (exactly
once) if and only if the iteration moves, its reply does not retire the agent, `h >= 500` and
the agent is not yet infected; so it is consulted at hop 500 and at every later hop of an
uninfected agent. -/
theorem disease_evaluated_from_500 {F : Type} (H : bio_model_h) (s : FrogLoop F)
    (t : FrogTick F) :
    (0 < diseaseCalls (frogIteration H s t).events ↔
      t.moves = true ∧ ¬ t.cell_values.1 + t.cell_values.2 < 0 ∧
        s.my_frog.hops ≥ 500 ∧ s.my_frog.infected = 0) ∧
    diseaseCalls (frogIteration H s t).events ≤ 1 := by
  rw [diseaseCalls_frogIteration]
  unfold retireTest diseaseDue
  split_ifs with h
  · exact ⟨⟨fun _ => h, fun _ => Nat.one_pos⟩, le_refl 1⟩
  · exact ⟨⟨fun h0 => absurd h0 (Nat.lt_irrefl 0), fun h1 => absurd h1 h⟩, Nat.zero_le 1⟩

/-! ## Theorems: agent hop loop, runs -/

/-- What an iteration that keeps the loop running has done to the frog: nothing if it did not
move; otherwise the reply was folded in and one more hop is counted. -/
theorem frogIteration_running {F : Type} (H : bio_model_h) (s s' : FrogLoop F) (t : FrogTick F)
    (h : (frogIteration H s t).next = .running s') :
    (t.moves = false ∧ s' = s) ∨
    (t.moves = true ∧ ¬ retireTest t.cell_values ∧
      s'.my_frog.hops = s.my_frog.hops + 1 ∧
      s'.my_frog.infLevel =
        s.my_frog.infLevel.set (infIndex s.my_frog.hops).toNat t.cell_values.2 ∧
      s'.my_frog.sum_infLevel =
        s.my_frog.sum_infLevel - s.my_frog.infLevel.getD (infIndex s.my_frog.hops).toNat 0
          + t.cell_values.2) := by
  cases hm : t.moves with
  | false =>
    rw [frogIteration_still H s t hm] at h
    injection h with h
    exact Or.inl ⟨rfl, h.symm⟩
  | true =>
    right
    by_cases hr : retireTest t.cell_values
    · rw [frogIteration_retire H s t hm hr] at h; cases h
    · rw [frogIteration_fold H s t hm hr] at h
      simp only at h
      split_ifs at h
      injection h with h
      subst h
      refine ⟨rfl, hr, ?_, ?_, ?_⟩
      · simp [atDeathCheck_hops]
      · simp only [atDeathCheck, diseaseStep, birthStep, foldReply]
        split_ifs <;> rfl
      · simp only [atDeathCheck, diseaseStep, birthStep, foldReply]
        split_ifs <;> rfl

/-- Sum of the last 500 levels after one more level has been received. -/
theorem drop_window_snoc (L : List Int) (l : Int) :
    ((L ++ [l]).drop (L.length + 1 - 500)).sum =
      (L.drop (L.length - 500)).sum -
        (if 500 ≤ L.length then L.getD (L.length - 500) 0 else 0) + l := by
  by_cases h : 500 ≤ L.length
  · have e1 : L.length + 1 - 500 = (L.length - 500) + 1 := by omega
    have h2 : L.length - 500 < L.length := by omega
    have e3 : (L.drop (L.length - 500)).sum
        = L.getD (L.length - 500) 0 + (L.drop (L.length - 500 + 1)).sum := by
      rw [List.drop_eq_getElem_cons h2, List.sum_cons, List.getD_eq_getElem _ _ h2]
    rw [e1, List.drop_append_of_le_length (by omega), if_pos h, e3, List.sum_append]
    simp
  · have e1 : L.length + 1 - 500 = 0 := by omega
    have e2 : L.length - 500 = 0 := by omega
    rw [e1, e2, if_neg h]
    simp

/-- The frog made by `newFrog`, with any infection flag, satisfies the window invariant for the
empty list of levels. -/
theorem windowInv_init {F : Type} (x y : F) (infected : Int) :
    windowInv (frogInit x y infected).my_frog [] := by
  refine ⟨rfl, ?_, ?_, ?_, ?_⟩
  · show (List.replicate 500 (0 : Int)).length = 500
    exact List.length_replicate _ _
  · show (0 : Int) = (List.replicate 500 (0 : Int)).sum
    rw [List.sum_replicate, smul_zero]
  · show (List.replicate 500 (0 : Int)).sum = (([] : List Int).drop _).sum
    rw [List.sum_replicate, smul_zero, List.drop_nil, List.sum_nil]
  · intro k hk
    show (List.replicate 500 (0 : Int)).getD (((([] : List Int)).length + k) % 500) 0 = _
    rw [List.getD_eq_getElem?_getD, List.getElem?_getD_replicate_default_eq]
    have hk5 : ¬ 500 ≤ ([] : List Int).length + k := by simp; omega
    rw [if_neg hk5]

/-- One completed hop with level `l` preserves the window invariant. -/
theorem windowInv_step {F : Type} (f f' : frog_t F) (L : List Int) (l : Int)
    (hinv : windowInv f L)
    (hh : f'.hops = f.hops + 1)
    (hb : f'.infLevel = f.infLevel.set (infIndex f.hops).toNat l)
    (hs : f'.sum_infLevel = f.sum_infLevel - f.infLevel.getD (infIndex f.hops).toNat 0 + l) :
    windowInv f' (L ++ [l]) := by
  obtain ⟨i1, i2, i3, i4, i5⟩ := hinv
  have hidx : (infIndex f.hops).toNat = L.length % 500 := by
    rw [i1]; unfold infIndex
    rw [show ((500 : Int)) = ((500 : Nat) : Int) from rfl, ← Int.ofNat_tmod]
    exact Int.toNat_ofNat _
  have hlt : L.length % 500 < f.infLevel.length := by rw [i2]; omega
  rw [hidx] at hb hs
  have hev : f.infLevel.getD (L.length % 500) 0 =
      if 500 ≤ L.length then L.getD (L.length - 500) 0 else 0 := by
    have := i5 0 (by omega)
    simpa using this
  have hsum : f'.infLevel.sum = f.infLevel.sum - f.infLevel.getD (L.length % 500) 0 + l := by
    rw [hb, List.sum_set', dif_pos hlt, List.getD_eq_getElem _ _ hlt]; ring
  refine ⟨?_, ?_, ?_, ?_, ?_⟩
  · rw [hh, i1]; simp
  · rw [hb, List.length_set, i2]
  · rw [hs, hsum, i3]
  · rw [hsum, List.length_append, List.length_singleton, drop_window_snoc, i4, hev]
  · intro k hk
    rw [List.length_append, List.length_singleton, hb]
    by_cases hk9 : k = 499
    · subst hk9
      have e1 : (L.length + 1 + 499) % 500 = L.length % 500 := by omega
      have e2 : L.length + 1 + 499 - 500 = L.length := by omega
      have e3 : 500 ≤ L.length + 1 + 499 := by omega
      rw [e1, e2, if_pos e3, List.getD_append_right _ _ _ _ (le_refl _)]
      simp [List.getElem?_set, hlt]
    · have hne : L.length % 500 ≠ (L.length + 1 + k) % 500 := by omega
      have hprev := i5 (k + 1) (by omega)
      have e1 : L.length + (k + 1) = L.length + 1 + k := by omega
      rw [e1] at hprev
      rw [List.getD_eq_getElem?_getD, List.getElem?_set_ne hne, ← List.getD_eq_getElem?_getD,
        hprev]
      by_cases h5 : 500 ≤ L.length + 1 + k
      · rw [if_pos h5, if_pos h5, List.getD_append _ _ _ _ (by omega)]
      · rw [if_neg h5, if_neg h5]

/-- Function `hopLevels` on a list with one more answer record in front. -/
theorem hopLevels_cons {F : Type} (t : FrogTick F) (ts : List (FrogTick F)) :
    hopLevels (t :: ts) = if t.moves = true then t.cell_values.2 :: hopLevels ts
      else hopLevels ts := by
  unfold hopLevels
  cases h : t.moves <;> simp [List.filter_cons, h]

/-- A run that is still running at its end preserves the window invariant, with the levels of
its hops appended. -/
theorem windowInv_run {F : Type} (H : bio_model_h) (ts : List (FrogTick F)) :
    ∀ (s s' : FrogLoop F) (L : List Int), windowInv s.my_frog L →
      frogAfter H s ts = .running s' → windowInv s'.my_frog (L ++ hopLevels ts) := by
  induction ts with
  | nil =>
    intro s s' L hinv h
    simp only [frogAfter] at h
    injection h with h
    subst h
    simpa [hopLevels] using hinv
  | cons t ts ih =>
    intro s s' L hinv h
    simp only [frogAfter] at h
    cases hn : (frogIteration H s t).next with
    | running s1 =>
      rw [hn] at h
      rcases frogIteration_running H s s1 t hn with ⟨hm, he⟩ | ⟨hm, _, h1, h2, h3⟩
      · subst he
        have := ih s1 s' L hinv h
        simpa [hopLevels_cons, hm] using this
      · have hstep := windowInv_step s.my_frog s1.my_frog L t.cell_values.2 hinv h1 h2 h3
        have := ih s1 s' (L ++ [t.cell_values.2]) hstep h
        simpa [hopLevels_cons, hm] using this
    | retired_reply w => rw [hn] at h; cases h
    | retired_death w => rw [hn] at h; cases h

/-- C1: for an agent started from the state made by `newFrog` (with any infection flag) and any
sequence of loop iterations after which the agent is still running, let `l_1..l_n` be the
infection levels of the replies to its hops.  Then the hop count is `n`, `sum_infLevel` is the
sum of the last `min(n, 500)` of these levels, the array `infLevel` has 500 entries, and
`sum_infLevel` is the sum of these entries. -/
theorem window_sum_invariant {F : Type} (H : bio_model_h) (x y : F) (infected : Int)
    (ts : List (FrogTick F)) (s : FrogLoop F)
    (h : frogAfter H (frogInit x y infected) ts = .running s) :
    s.my_frog.hops = ((hopLevels ts).length : Int) ∧
    s.my_frog.sum_infLevel =
      ((hopLevels ts).drop ((hopLevels ts).length - min (hopLevels ts).length 500)).sum ∧
    s.my_frog.infLevel.length = 500 ∧
    s.my_frog.sum_infLevel = s.my_frog.infLevel.sum := by
  have hinv := windowInv_run H ts (frogInit x y infected) s [] (windowInv_init x y infected) h
  rw [List.nil_append] at hinv
  obtain ⟨i1, i2, i3, i4, _⟩ := hinv
  have e : (hopLevels ts).length - min (hopLevels ts).length 500 = (hopLevels ts).length - 500 := by
    omega
  exact ⟨i1, by rw [e, i3, i4], i2, i3⟩

/-- Witness of C1: after the answers `sampleTicks` a fresh frog is still running, has made three
hops with levels 0, 3 and 7, and `sum_infLevel` is 10. -/
theorem window_sum_invariant_witness :
    frogAfter sampleHeader (frogInit 0 0 0) sampleTicks = .running sampleAfter ∧
    hopLevels sampleTicks = [0, 3, 7] ∧
    sampleAfter.my_frog.sum_infLevel = 10 ∧
    (sampleAfter.my_frog.hops = ((hopLevels sampleTicks).length : Int) ∧
      sampleAfter.my_frog.sum_infLevel =
        ((hopLevels sampleTicks).drop
          ((hopLevels sampleTicks).length - min (hopLevels sampleTicks).length 500)).sum ∧
      sampleAfter.my_frog.infLevel.length = 500 ∧
      sampleAfter.my_frog.sum_infLevel = sampleAfter.my_frog.infLevel.sum) :=
  ⟨by decide, by decide, by decide,
    window_sum_invariant sampleHeader 0 0 0 sampleTicks sampleAfter (by decide)⟩

/-- The birth guard on a hop count that is a natural number. -/
theorem birthDue_cast (k : Nat) : birthDue (k : Int) ↔ 300 ≤ k ∧ k % 300 = 0 := by
  unfold birthDue
  rw [show (300 : Int) = ((300 : Nat) : Int) from rfl, ← Int.ofNat_tmod]
  constructor <;> intro h <;> omega

/-- The multiples of 300 from 300 on that are below `m`. -/
theorem filter_range_300 (m : Nat) :
    (List.range m).filter (fun j => decide (300 ≤ j ∧ j % 300 = 0)) =
      (List.range ((m - 1) / 300)).map (fun q => 300 * (q + 1)) := by
  induction m with
  | zero => simp
  | succ m ih =>
    rw [List.range_succ, List.filter_append, ih]
    by_cases hp : 300 ≤ m ∧ m % 300 = 0
    · have e : (m + 1 - 1) / 300 = (m - 1) / 300 + 1 := by omega
      have e2 : 300 * ((m - 1) / 300 + 1) = m := by omega
      rw [e, List.range_succ, List.map_append]
      simp [hp, e2]
    · have e : (m + 1 - 1) / 300 = (m - 1) / 300 := by omega
      rw [e]
      simp [hp]

/-- Every iteration recorded in a run that is still running at its end did what
`frogIteration` does and kept the loop running. -/
theorem frogRun_records {F : Type} (H : bio_model_h) (ts : List (FrogTick F)) :
    ∀ (s s' : FrogLoop F), frogAfter H s ts = .running s' →
      ∀ r ∈ frogRun H s ts, r.events = (frogIteration H r.pre r.tick).events ∧
        ∃ s1, (frogIteration H r.pre r.tick).next = .running s1 := by
  induction ts with
  | nil => intro s s' _ r hr; simp [frogRun] at hr
  | cons t ts ih =>
    intro s s' h r hr
    simp only [frogAfter] at h
    simp only [frogRun, List.mem_cons] at hr
    cases hn : (frogIteration H s t).next with
    | running s1 =>
      rw [hn] at h hr
      rcases hr with hr | hr
      · subst hr; exact ⟨rfl, s1, hn⟩
      · exact ih s1 s' h r hr
    | retired_reply w => rw [hn] at h; cases h
    | retired_death w => rw [hn] at h; cases h

/-- Hop counts and birth evaluations of a run that starts at hop count `k` and is still running
at its end. -/
theorem birth_run {F : Type} (H : bio_model_h) (ts : List (FrogTick F)) :
    ∀ (s s' : FrogLoop F) (k : Nat), s.my_frog.hops = (k : Int) →
      frogAfter H s ts = .running s' →
      hopCounts (frogRun H s ts) =
        (List.range' k (hopLevels ts).length).map (fun (j : Nat) => (j : Int)) ∧
      birthHops (frogRun H s ts) =
        ((List.range' k (hopLevels ts).length).filter
          (fun j => decide (300 ≤ j ∧ j % 300 = 0))).map (fun (j : Nat) => (j : Int)) ∧
      birthTotal (frogRun H s ts) =
        ((List.range' k (hopLevels ts).length).filter
          (fun j => decide (300 ≤ j ∧ j % 300 = 0))).length := by
  induction ts with
  | nil => intro s s' k _ _; simp [frogRun, hopCounts, birthHops, birthTotal, hopLevels]
  | cons t ts ih =>
    intro s s' k hk h
    simp only [frogAfter] at h
    cases hn : (frogIteration H s t).next with
    | running s1 =>
      rw [hn] at h
      have hcalls := birthCalls_frogIteration H s t
      rcases frogIteration_running H s s1 t hn with ⟨hm, he⟩ | ⟨hm, hr, h1, _, _⟩
      · subst he
        obtain ⟨a, b, c⟩ := ih s1 s' k hk h
        have h0 : birthCalls (frogIteration H s1 t).events = 0 := by rw [hcalls]; simp [hm]
        refine ⟨?_, ?_, ?_⟩
        · simpa [frogRun, hn, hopCounts, hopLevels_cons, hm] using a
        · simpa [frogRun, hn, birthHops, hopLevels_cons, hm, h0] using b
        · simpa [frogRun, hn, birthTotal, hopLevels_cons, hm, h0] using c
      · have hk1 : s1.my_frog.hops = ((k + 1 : Nat) : Int) := by rw [h1, hk]; simp
        obtain ⟨a, b, c⟩ := ih s1 s' (k + 1) hk1 h
        have hdue : birthDue s.my_frog.hops ↔ 300 ≤ k ∧ k % 300 = 0 := by
          rw [hk]; exact birthDue_cast k
        simp only [hopCounts, birthHops, birthTotal] at a b c
        by_cases hp : 300 ≤ k ∧ k % 300 = 0
        · have h1c : birthCalls (frogIteration H s t).events = 1 := by
            rw [hcalls, if_pos ⟨hm, hr, hdue.mpr hp⟩]
          refine ⟨?_, ?_, ?_⟩
          · simp [frogRun, hn, hopCounts, hopLevels_cons, hm, List.range'_succ, a, hk]
          · simp [frogRun, hn, birthHops, hopLevels_cons, hm, List.range'_succ, b, hk, h1c,
              List.filter_cons, hp]
          · simp [frogRun, hn, birthTotal, hopLevels_cons, hm, List.range'_succ, c, h1c,
              List.filter_cons, hp]
            omega
        · have h0c : birthCalls (frogIteration H s t).events = 0 := by
            rw [hcalls, if_neg]
            rintro ⟨_, _, hd⟩
            exact hp (hdue.mp hd)
          refine ⟨?_, ?_, ?_⟩
          · simp [frogRun, hn, hopCounts, hopLevels_cons, hm, List.range'_succ, a, hk]
          · simp [frogRun, hn, birthHops, hopLevels_cons, hm, List.range'_succ, b, h0c,
              List.filter_cons, hp]
          · simp [frogRun, hn, birthTotal, hopLevels_cons, hm, List.range'_succ, c, h0c,
              List.filter_cons, hp]
    | retired_reply w => rw [hn] at h; cases h
    | retired_death w => rw [hn] at h; cases h

/-! ## Theorems: coordinator loop -/

/-- Filtering a broadcast for its own payload keeps every message. -/
theorem sendsOf_broadcast_self (H : bio_model_h) (G : Globals) (v : Int) :
    sendsOf v (broadcast H G v) = broadcast H G v := by
  unfold sendsOf broadcast
  rw [List.filter_eq_self]
  intro e he
  obtain ⟨i, _, rfl⟩ := List.mem_map.mp he
  simp

/-- Filtering a broadcast for another payload keeps nothing. -/
theorem sendsOf_broadcast_ne (H : bio_model_h) (G : Globals) (v w : Int) (h : w ≠ v) :
    sendsOf v (broadcast H G w) = [] := by
  unfold sendsOf broadcast
  rw [List.filter_eq_nil_iff]
  intro e he
  obtain ⟨i, _, rfl⟩ := List.mem_map.mp he
  simp [h]

/-- Function `sendsOf` on a concatenation. -/
theorem sendsOf_append (v : Int) (es fs : List MasterEvent) :
    sendsOf v (es ++ fs) = sendsOf v es ++ sendsOf v fs := by
  unfold sendsOf
  exact List.filter_append _ _

/-- The events of one `masterCode` iteration: year timer, end of simulation, print timer, and
then the extinction line or the abort. -/
theorem masterIteration_events (H : bio_model_h) (G : Globals) (s : MasterLoop)
    (t : MasterTick) :
    (masterIteration H G s t).events =
      (yearStep H G s t).1 ++ (endStep H G (yearStep H G s t).2 t).1 ++
        (printStep G (endStep H G (yearStep H G s t).2 t).2 t).1 ++
        (if extinct H G s t then [.print_all_dead]
         else if getAliveFrogs G t.workers_cap ≥ 100 then [.print_more_than_100, .MPI_Abort 1]
         else []) := by
  unfold masterIteration
  split_ifs <;> simp

/-- The `STOP_FROGS` messages of one `masterCode` iteration: the whole broadcast if the year
counter equals `YEARS` at the test of line 101, none otherwise. -/
theorem sendsOf_masterIteration (H : bio_model_h) (G : Globals) (s : MasterLoop)
    (t : MasterTick) (hne : H.STOP_FROGS ≠ H.PRINT_CELL) :
    sendsOf H.STOP_FROGS (masterIteration H G s t).events =
      if yearAtCheck H G s t = G.YEARS then broadcast H G H.STOP_FROGS else [] := by
  have hy : sendsOf H.STOP_FROGS (yearStep H G s t).1 = [] := by
    unfold yearStep
    split_ifs
    · have := sendsOf_broadcast_ne H G H.STOP_FROGS H.PRINT_CELL (Ne.symm hne)
      simpa [sendsOf] using this
    · rfl
  have he : sendsOf H.STOP_FROGS (endStep H G (yearStep H G s t).2 t).1 =
      if yearAtCheck H G s t = G.YEARS then broadcast H G H.STOP_FROGS else [] := by
    unfold endStep yearAtCheck
    split_ifs
    · have := sendsOf_broadcast_self H G H.STOP_FROGS
      simpa [sendsOf] using this
    · rfl
  have hp : sendsOf H.STOP_FROGS (printStep G (endStep H G (yearStep H G s t).2 t).2 t).1 = [] := by
    unfold printStep
    split_ifs <;> rfl
  rw [masterIteration_events, sendsOf_append, sendsOf_append, sendsOf_append, hy, he, hp]
  split_ifs <;> simp [sendsOf]

/-- The year counter at the test of line 101 is not below its value at the head of the
iteration. -/
theorem yearAtCheck_ge (H : bio_model_h) (G : Globals) (s : MasterLoop) (t : MasterTick) :
    s.curr_year ≤ yearAtCheck H G s t := by
  unfold yearAtCheck yearStep
  split_ifs <;> simp

/-- The year counter after the three timer steps: one more than at the test of line 101 if it
equalled `YEARS` there, the same otherwise. -/
theorem atSafeguard_year (H : bio_model_h) (G : Globals) (s : MasterLoop) (t : MasterTick) :
    (atSafeguard H G s t).curr_year =
      if yearAtCheck H G s t = G.YEARS then yearAtCheck H G s t + 1
      else yearAtCheck H G s t := by
  unfold atSafeguard printStep endStep yearAtCheck
  split_ifs <;> rfl

/-- An iteration that keeps the loop running leaves the locals as they stand at the safeguard
test. -/
theorem masterIteration_running (H : bio_model_h) (G : Globals) (s s' : MasterLoop)
    (t : MasterTick) (h : (masterIteration H G s t).next = .running s') :
    s' = atSafeguard H G s t := by
  unfold masterIteration at h
  split_ifs at h
  injection h with h
  exact h.symm

/-- Every iteration recorded in a run of `masterCode` starts with a year counter that is not
below the one the run started with, and did what `masterIteration` does. -/
theorem masterRun_records (H : bio_model_h) (G : Globals) (ts : List MasterTick) :
    ∀ s : MasterLoop, ∀ r ∈ masterRun H G s ts,
      s.curr_year ≤ r.pre.curr_year ∧ r.events = (masterIteration H G r.pre r.tick).events := by
  induction ts with
  | nil => intro s r hr; simp [masterRun] at hr
  | cons t ts ih =>
    intro s r hr
    simp only [masterRun] at hr
    split_ifs at hr with hc
    · rw [List.mem_cons] at hr
      rcases hr with hr | hr
      · subst hr; exact ⟨le_refl _, rfl⟩
      · cases hn : (masterIteration H G s t).next with
        | running s1 =>
          rw [hn] at hr
          obtain ⟨a, b⟩ := ih s1 r hr
          refine ⟨?_, b⟩
          have h1 := masterIteration_running H G s s1 t hn
          have h2 := atSafeguard_year H G s t
          have h3 := yearAtCheck_ge H G s t
          rw [← h1] at h2
          split_ifs at h2 <;> omega
        | left_break s1 => rw [hn] at hr; simp at hr
        | aborted => rw [hn] at hr; simp at hr
    · simp at hr

/-- C8: in every run of the loop of `masterCode` (any `YEARS`, any start values of the locals,
any clock readings and worker counts), with `STOP_FROGS` different from `PRINT_CELL`: an
iteration sends `STOP_FROGS` messages if and only if the year counter equals `YEARS` at the test
that follows the year timer, and then it sends exactly one to each of the ranks
`1..NUM_OF_CELLS`, in this order; and of any two iterations of the run at most one has the year
counter equal to `YEARS` at that test, so the broadcast happens in at most one iteration, the
first one that meets the test. -/
theorem stop_frogs_broadcast_once (H : bio_model_h) (G : Globals) (s : MasterLoop)
    (ts : List MasterTick) (hne : H.STOP_FROGS ≠ H.PRINT_CELL) :
    (∀ r ∈ masterRun H G s ts,
      sendsOf H.STOP_FROGS r.events =
        if yearAtCheck H G r.pre r.tick = G.YEARS then
          (List.range G.NUM_OF_CELLS.toNat).map
            (fun (i : Nat) => MasterEvent.send H.STOP_FROGS ((i : Int) + 1) H.HOP_TAG)
        else []) ∧
    (masterRun H G s ts).Pairwise
      (fun r1 r2 => yearAtCheck H G r1.pre r1.tick = G.YEARS →
        yearAtCheck H G r2.pre r2.tick ≠ G.YEARS ∧ sendsOf H.STOP_FROGS r2.events = []) := by
  constructor
  · intro r hr
    obtain ⟨_, he⟩ := masterRun_records H G ts s r hr
    rw [he, sendsOf_masterIteration H G r.pre r.tick hne]
    rfl
  · induction ts generalizing s with
    | nil => simp [masterRun]
    | cons t ts ih =>
      simp only [masterRun]
      split_ifs with hc
      · rw [List.pairwise_cons]
        constructor
        · intro r2 hr2 hy
          have hy' : yearAtCheck H G s t = G.YEARS := hy
          cases hn : (masterIteration H G s t).next with
          | running s1 =>
            rw [hn] at hr2
            obtain ⟨a, he⟩ := masterRun_records H G ts s1 r2 hr2
            have h1 := masterIteration_running H G s s1 t hn
            have h2 := atSafeguard_year H G s t
            have h3 := yearAtCheck_ge H G r2.pre r2.tick
            rw [← h1, if_pos hy'] at h2
            have hgt : yearAtCheck H G r2.pre r2.tick ≠ G.YEARS := by omega
            refine ⟨hgt, ?_⟩
            rw [he, sendsOf_masterIteration H G r2.pre r2.tick hne, if_neg hgt]
          | left_break s1 => rw [hn] at hr2; simp at hr2
          | aborted => rw [hn] at hr2; simp at hr2
        · cases hn : (masterIteration H G s t).next with
          | running s1 => exact ih s1
          | left_break s1 => exact List.Pairwise.nil
          | aborted => exact List.Pairwise.nil
      · exact List.Pairwise.nil

/-- Witness of C8: with the sample constants, 2 cells and `YEARS = 1`, a run of three
iterations in which the year timer fires in the second and in the third broadcasts `STOP_FROGS`
in the second iteration only, to the ranks 1 and 2. -/
theorem stop_frogs_broadcast_once_witness :
    sampleHeader.STOP_FROGS ≠ sampleHeader.PRINT_CELL ∧
    (masterRun sampleHeader sampleGlobals (masterInit 0 0)
        [sampleMasterTick 5 0, sampleMasterTick 5 2, sampleMasterTick 5 4]).map
      (fun r => sendsOf sampleHeader.STOP_FROGS r.events) =
      [[], [.send (-4) 1 10, .send (-4) 2 10], []] ∧
    ((∀ r ∈ masterRun sampleHeader sampleGlobals (masterInit 0 0)
        [sampleMasterTick 5 0, sampleMasterTick 5 2, sampleMasterTick 5 4],
      sendsOf sampleHeader.STOP_FROGS r.events =
        if yearAtCheck sampleHeader sampleGlobals r.pre r.tick = sampleGlobals.YEARS then
          (List.range sampleGlobals.NUM_OF_CELLS.toNat).map
            (fun (i : Nat) =>
              MasterEvent.send sampleHeader.STOP_FROGS ((i : Int) + 1) sampleHeader.HOP_TAG)
        else []) ∧
    (masterRun sampleHeader sampleGlobals (masterInit 0 0)
        [sampleMasterTick 5 0, sampleMasterTick 5 2, sampleMasterTick 5 4]).Pairwise
      (fun r1 r2 => yearAtCheck sampleHeader sampleGlobals r1.pre r1.tick = sampleGlobals.YEARS →
        yearAtCheck sampleHeader sampleGlobals r2.pre r2.tick ≠ sampleGlobals.YEARS ∧
          sendsOf sampleHeader.STOP_FROGS r2.events = [])) :=
  ⟨by decide, by decide,
    stop_frogs_broadcast_once sampleHeader sampleGlobals (masterInit 0 0)
      [sampleMasterTick 5 0, sampleMasterTick 5 2, sampleMasterTick 5 4] (by decide)⟩

/-- C9: in a loop iteration of `masterCode` that reaches the safeguard test (it is not left by
the `break` of the extinction test before), an alive count of 100 or more at that test aborts the
program in this iteration: the iteration ends with the fatal message and `MPI_Abort`, it is the
last iteration of the run whatever answers would follow, and the program ends aborted, so the
year counter does not advance any more.  With an alive count below 100 at the safeguard test the
iteration does not abort and the loop goes on. -/
theorem safeguard_aborts (H : bio_model_h) (G : Globals) (s : MasterLoop) (t : MasterTick)
    (ts : List MasterTick) (hc : getAliveFrogs G t.workers_cond > 0)
    (hx : ¬ extinct H G s t) :
    (getAliveFrogs G t.workers_cap ≥ 100 →
      (masterIteration H G s t).next = .aborted ∧
      (∃ es, (masterIteration H G s t).events = es ++ [.print_more_than_100, .MPI_Abort 1]) ∧
      masterRun H G s (t :: ts) =
        [{ pre := s, tick := t, events := (masterIteration H G s t).events }] ∧
      masterAfter H G s (t :: ts) = .aborted) ∧
    (getAliveFrogs G t.workers_cap < 100 →
      (masterIteration H G s t).next = .running (atSafeguard H G s t)) := by
  constructor
  · intro hcap
    have hn : (masterIteration H G s t).next = .aborted := by
      unfold masterIteration
      simp only [hx, hcap, if_true, if_false]
    refine ⟨hn, ?_, ?_, ?_⟩
    · rw [masterIteration_events, if_neg hx, if_pos hcap]
      exact ⟨_, rfl⟩
    · simp only [masterRun, hc, if_true, hn]
    · simp only [masterAfter, hc, if_true, hn]
  · intro hcap
    have hcap' : ¬ getAliveFrogs G t.workers_cap ≥ 100 := by omega
    unfold masterIteration atSafeguard
    simp only [hx, hcap', if_false]

/-- Witness of C9: with the default globals (16 cells) and 116 active workers the alive count is
100, the extinction test fails, and the first iteration aborts; with 115 active workers it does
not. -/
theorem safeguard_aborts_witness :
    getAliveFrogs init_default_values (sampleMasterTick 116 0).workers_cond > 0 ∧
    ¬ extinct sampleHeader init_default_values (masterInit 0 0) (sampleMasterTick 116 0) ∧
    getAliveFrogs init_default_values (sampleMasterTick 116 0).workers_cap ≥ 100 ∧
    masterAfter sampleHeader init_default_values (masterInit 0 0)
      (sampleMasterTick 116 0 :: [sampleMasterTick 116 5, sampleMasterTick 116 9]) = .aborted ∧
    getAliveFrogs init_default_values (sampleMasterTick 115 0).workers_cap < 100 ∧
    (masterIteration sampleHeader init_default_values (masterInit 0 0)
        (sampleMasterTick 115 0)).next =
      .running (atSafeguard sampleHeader init_default_values (masterInit 0 0)
        (sampleMasterTick 115 0)) :=
  ⟨by decide, by decide, by decide,
    ((safeguard_aborts sampleHeader init_default_values (masterInit 0 0) (sampleMasterTick 116 0)
      [sampleMasterTick 116 5, sampleMasterTick 116 9] (by decide) (by decide)).1
        (by decide)).2.2.2,
    by decide,
    (safeguard_aborts sampleHeader init_default_values (masterInit 0 0) (sampleMasterTick 115 0)
      [] (by decide) (by decide)).2 (by decide)⟩

/-! ## Theorems: aggregator loop, commands and reports -/

/-- C11: for every state of `cellCode` (any counters, closing flag set or not), handling a
`PRINT_CELL` command (a value different from `STOP_CELL`) prints the two counters, sets
`populationInflux` and `infectionLevel` to exactly 0, sends no message, keeps the closing flag
as it is, and stays in the loop. -/
theorem print_cell_resets (H : bio_model_h) (rank : Int) (s : CellLoop) (src : Int)
    (h : H.PRINT_CELL ≠ H.STOP_CELL) :
    cellIteration H rank s { frog_infection := H.PRINT_CELL, source := src } =
      { events := [.print rank s.my_cell.populationInflux s.my_cell.infectionLevel],
        next := some { my_cell := { populationInflux := 0, infectionLevel := 0 },
                       stop_frog := s.stop_frog } } ∧
    cellReplies (cellIteration H rank s { frog_infection := H.PRINT_CELL, source := src }).events
      = [] := by
  have e : cellIteration H rank s { frog_infection := H.PRINT_CELL, source := src } =
      { events := [.print rank s.my_cell.populationInflux s.my_cell.infectionLevel],
        next := some { my_cell := { populationInflux := 0, infectionLevel := 0 },
                       stop_frog := s.stop_frog } } := by
    simp [cellIteration, h]
  rw [e]
  exact ⟨rfl, rfl⟩

/-- Witness of C11: a closing aggregator with counters `(5, 2)` prints them and goes on with
counters `(0, 0)`, still closing. -/
theorem print_cell_resets_witness :
    sampleHeader.PRINT_CELL ≠ sampleHeader.STOP_CELL ∧
    (cellIteration sampleHeader 3
        { my_cell := { populationInflux := 5, infectionLevel := 2 }, stop_frog := 1 }
        { frog_infection := sampleHeader.PRINT_CELL, source := 0 } =
      { events := [.print 3 5 2],
        next := some { my_cell := { populationInflux := 0, infectionLevel := 0 },
                       stop_frog := 1 } } ∧
    cellReplies (cellIteration sampleHeader 3
        { my_cell := { populationInflux := 5, infectionLevel := 2 }, stop_frog := 1 }
        { frog_infection := sampleHeader.PRINT_CELL, source := 0 }).events = []) :=
  ⟨by decide,
    print_cell_resets sampleHeader 3
      { my_cell := { populationInflux := 5, infectionLevel := 2 }, stop_frog := 1 } 0
      (by decide)⟩

/-- C12: for every state of `cellCode` whose closing flag is not set and every received value
`v` that is none of the three commands, handling the report increases `populationInflux` by
exactly 1 and `infectionLevel` by exactly `v`, and sends exactly one message: the pair of the
two updated counters, to the sender of the report. -/
theorem report_counts_and_replies (H : bio_model_h) (rank : Int) (s : CellLoop) (m : CellMsg)
    (hs : s.stop_frog = 0) (hm : isReport H m.frog_infection) :
    cellIteration H rank s m =
      { events := [.send (s.my_cell.populationInflux + 1)
                    (s.my_cell.infectionLevel + m.frog_infection) m.source H.HOP_TAG],
        next := some
          { my_cell :=
              { populationInflux := s.my_cell.populationInflux + 1,
                infectionLevel := s.my_cell.infectionLevel + m.frog_infection },
            stop_frog := s.stop_frog } } := by
  obtain ⟨h1, h2, h3⟩ := hm
  simp [cellIteration, h1, h2, h3, hs]

/-- Witness of C12: an aggregator with counters `(5, 2)` that is not closing answers a report
with flag 1 from rank 20 with `(6, 3)`. -/
theorem report_counts_and_replies_witness :
    cellIteration sampleHeader 3
        { my_cell := { populationInflux := 5, infectionLevel := 2 }, stop_frog := 0 }
        { frog_infection := 1, source := 20 } =
      { events := [.send (5 + 1) (2 + 1) 20 sampleHeader.HOP_TAG],
        next := some
          { my_cell := { populationInflux := 5 + 1, infectionLevel := 2 + 1 },
            stop_frog := 0 } } :=
  report_counts_and_replies sampleHeader 3
    { my_cell := { populationInflux := 5, infectionLevel := 2 }, stop_frog := 0 }
    { frog_infection := 1, source := 20 } (by decide) (by decide)

/-- One iteration of `cellCode` on a flag 0 or 1 or a command keeps the counters in the range
`0 <= infectionLevel <= populationInflux`. -/
theorem cellIteration_counters (H : bio_model_h) (rank : Int) (s s' : CellLoop) (m : CellMsg)
    (hm : m.frog_infection = 0 ∨ m.frog_infection = 1 ∨ ¬ isReport H m.frog_infection)
    (hi : 0 ≤ s.my_cell.infectionLevel ∧ s.my_cell.infectionLevel ≤ s.my_cell.populationInflux)
    (hn : (cellIteration H rank s m).next = some s') :
    0 ≤ s'.my_cell.infectionLevel ∧ s'.my_cell.infectionLevel ≤ s'.my_cell.populationInflux := by
  unfold cellIteration at hn
  unfold isReport at hm
  obtain ⟨hi1, hi2⟩ := hi
  split_ifs at hn <;> (injection hn with hn; subst hn; constructor <;> simp only [] <;> omega)

/-- Every iteration recorded in a run of `cellCode` from counters in the range
`0 <= infectionLevel <= populationInflux`, on flags 0 or 1 and commands, starts with counters in
that range, received one of these messages, and did what `cellIteration` does. -/
theorem cellRun_counters (H : bio_model_h) (rank : Int) (ms : List CellMsg) :
    ∀ s : CellLoop,
      (∀ m ∈ ms, m.frog_infection = 0 ∨ m.frog_infection = 1 ∨ ¬ isReport H m.frog_infection) →
      (0 ≤ s.my_cell.infectionLevel ∧ s.my_cell.infectionLevel ≤ s.my_cell.populationInflux) →
      ∀ r ∈ cellRun H rank s ms,
        (0 ≤ r.pre.my_cell.infectionLevel ∧
          r.pre.my_cell.infectionLevel ≤ r.pre.my_cell.populationInflux) ∧
        (r.msg.frog_infection = 0 ∨ r.msg.frog_infection = 1 ∨
          ¬ isReport H r.msg.frog_infection) ∧
        r.events = (cellIteration H rank r.pre r.msg).events := by
  induction ms with
  | nil => intro s _ _ r hr; simp [cellRun] at hr
  | cons m ms ih =>
    intro s hms hi r hr
    simp only [cellRun, List.mem_cons] at hr
    rcases hr with hr | hr
    · subst hr; exact ⟨hi, hms m (List.mem_cons_self _ _), rfl⟩
    · cases hn : (cellIteration H rank s m).next with
      | none => rw [hn] at hr; simp at hr
      | some s' =>
        rw [hn] at hr
        exact ih s' (fun m' hm' => hms m' (List.mem_cons_of_mem _ hm'))
          (cellIteration_counters H rank s s' m (hms m (List.mem_cons_self _ _)) hi hn) r hr

/-- The replies of one iteration of `cellCode`: none for a command, the sentinel pair for a
report while closing, the two updated counters otherwise. -/
theorem cellReplies_cellIteration (H : bio_model_h) (rank : Int) (s : CellLoop) (m : CellMsg) :
    cellReplies (cellIteration H rank s m).events =
      if isReport H m.frog_infection then
        (if s.stop_frog ≠ 0 then [(-1, -1)]
         else [(s.my_cell.populationInflux + 1, s.my_cell.infectionLevel + m.frog_infection)])
      else [] := by
  unfold cellIteration isReport
  split_ifs <;> simp_all [cellReplies]

/-- An iteration of the hop loop that moves leaves the loop at the reply test exactly if the
retire test holds for the reply. -/
theorem retired_reply_iff {F : Type} (H : bio_model_h) (s : FrogLoop F) (t : FrogTick F)
    (hm : t.moves = true) :
    (∃ w, (frogIteration H s t).next = .retired_reply w) ↔ retireTest t.cell_values := by
  constructor
  · rintro ⟨w, hw⟩
    by_contra hr
    rw [frogIteration_fold H s t hm hr] at hw
    simp only at hw
    split_ifs at hw
  · intro hr
    exact ⟨t.sleep, by rw [frogIteration_retire H s t hm hr]⟩

/-- C19: let `cellCode` start from zero counters and receive only flags 0 or 1 and commands.
Every reply `(p, q)` it sends while not closing has `p >= 1` and `0 <= q <= p`, so the retire
test `p + q < 0` of the agent is false for it; every reply it sends while closing makes that
test true; hence an agent that receives the reply leaves its loop at the reply test if and
only if the aggregator was closing. -/
theorem reply_retires_iff_closing (H : bio_model_h) (rank : Int) (ms : List CellMsg)
    (hms : ∀ m ∈ ms,
      m.frog_infection = 0 ∨ m.frog_infection = 1 ∨ ¬ isReport H m.frog_infection) :
    ∀ r ∈ cellRun H rank cellInit ms, ∀ p ∈ cellReplies r.events,
      (r.pre.stop_frog = 0 → 1 ≤ p.1 ∧ 0 ≤ p.2 ∧ p.2 ≤ p.1 ∧ ¬ retireTest p) ∧
      (r.pre.stop_frog ≠ 0 → retireTest p) ∧
      (∀ (F : Type) (s : FrogLoop F) (t : FrogTick F), t.moves = true → t.cell_values = p →
        ((∃ w, (frogIteration H s t).next = .retired_reply w) ↔ r.pre.stop_frog ≠ 0)) := by
  intro r hr p hp
  obtain ⟨⟨hi1, hi2⟩, hmsg, he⟩ :=
    cellRun_counters H rank ms cellInit hms (by decide) r hr
  rw [he, cellReplies_cellIteration] at hp
  have key : (r.pre.stop_frog = 0 → 1 ≤ p.1 ∧ 0 ≤ p.2 ∧ p.2 ≤ p.1 ∧ ¬ retireTest p) ∧
      (r.pre.stop_frog ≠ 0 → retireTest p) := by
    split_ifs at hp with h1 h2
    · rw [List.mem_singleton] at hp
      subst hp
      exact ⟨fun h0 => absurd h0 h2, fun _ => by decide⟩
    · rw [List.mem_singleton] at hp
      subst hp
      have h0 : r.pre.stop_frog = 0 := by
        by_contra hne
        exact h2 hne
      have hv : r.msg.frog_infection = 0 ∨ r.msg.frog_infection = 1 := by
        rcases hmsg with h | h | h
        · exact Or.inl h
        · exact Or.inr h
        · exact absurd h1 h
      refine ⟨fun _ => ?_, fun hne => absurd h0 hne⟩
      unfold retireTest
      simp only []
      omega
    · simp at hp
  refine ⟨key.1, key.2, ?_⟩
  intro F s t hm hcv
  rw [retired_reply_iff H s t hm, hcv]
  constructor
  · intro hret
    intro h0
    exact (key.1 h0).2.2.2 hret
  · exact key.2

/-- Witness of C19: a fresh aggregator that receives a report with flag 1, then `STOP_FROGS`,
then a report with flag 0, replies `(1, 1)` and then `(-1, -1)`. -/
theorem reply_retires_iff_closing_witness :
    (∀ m ∈ ([⟨1, 20⟩, ⟨sampleHeader.STOP_FROGS, 0⟩, ⟨0, 21⟩] : List CellMsg),
      m.frog_infection = 0 ∨ m.frog_infection = 1 ∨
        ¬ isReport sampleHeader m.frog_infection) ∧
    (cellRun sampleHeader 3 cellInit
        [⟨1, 20⟩, ⟨sampleHeader.STOP_FROGS, 0⟩, ⟨0, 21⟩]).map (fun r => cellReplies r.events)
      = [[(1, 1)], [], [(-1, -1)]] ∧
    (∀ r ∈ cellRun sampleHeader 3 cellInit [⟨1, 20⟩, ⟨sampleHeader.STOP_FROGS, 0⟩, ⟨0, 21⟩],
      ∀ p ∈ cellReplies r.events,
        (r.pre.stop_frog = 0 → 1 ≤ p.1 ∧ 0 ≤ p.2 ∧ p.2 ≤ p.1 ∧ ¬ retireTest p) ∧
        (r.pre.stop_frog ≠ 0 → retireTest p) ∧
        (∀ (F : Type) (s : FrogLoop F) (t : FrogTick F), t.moves = true → t.cell_values = p →
          ((∃ w, (frogIteration sampleHeader s t).next = .retired_reply w) ↔
            r.pre.stop_frog ≠ 0))) :=
  ⟨by decide, by decide,
    reply_retires_iff_closing sampleHeader 3
      [⟨1, 20⟩, ⟨sampleHeader.STOP_FROGS, 0⟩, ⟨0, 21⟩] (by decide)⟩

/-! ## Theorems: agent hop loop, frame and safety -/

/-- The infected flag at the death guard: unchanged if it was set before the iteration. -/
theorem atDeathCheck_infected {F : Type} (H : bio_model_h) (s : FrogLoop F) (t : FrogTick F)
    (hi : s.my_frog.infected ≠ 0) :
    (atDeathCheck H s t).infected = s.my_frog.infected := by
  unfold atDeathCheck diseaseStep birthStep foldReply diseaseDue
  split_ifs <;> simp_all

/-- C15: infection is monotone.  For every state of the hop loop and every iteration (moving or
not, whatever the reply and the answers of `willGiveBirth`, `willCatchDisease` and `willDie`),
if the infected flag is set before the iteration and the loop goes on, the flag has the same
value afterwards. -/
theorem infection_is_monotone {F : Type} (H : bio_model_h) (s s' : FrogLoop F)
    (t : FrogTick F) (hi : s.my_frog.infected ≠ 0)
    (hn : (frogIteration H s t).next = .running s') :
    s'.my_frog.infected = s.my_frog.infected ∧ s'.my_frog.infected ≠ 0 := by
  have key : s'.my_frog.infected = s.my_frog.infected := by
    cases hm : t.moves with
    | false =>
      rw [frogIteration_still H s t hm] at hn
      injection hn with hn
      rw [hn]
    | true =>
      by_cases hr : retireTest t.cell_values
      · rw [frogIteration_retire H s t hm hr] at hn; cases hn
      · rw [frogIteration_fold H s t hm hr] at hn
        simp only at hn
        split_ifs at hn
        injection hn with hn
        subst hn
        exact atDeathCheck_infected H s t hi
  exact ⟨key, by rw [key]; exact hi⟩

/-- Witness of C15: an infected frog at hop count 700 that hops and survives the death
evaluation is still infected. -/
theorem infection_is_monotone_witness :
    (sampleFrog 700 1).my_frog.infected ≠ 0 ∧
    (frogIteration sampleHeader (sampleFrog 700 1) quietTick).next
      = .running sampleInfectedAfter ∧
    (sampleInfectedAfter.my_frog.infected = (sampleFrog 700 1).my_frog.infected ∧
      sampleInfectedAfter.my_frog.infected ≠ 0) :=
  ⟨by decide, by decide,
    infection_is_monotone sampleHeader (sampleFrog 700 1) sampleInfectedAfter quietTick
      (by decide) (by decide)⟩

/-- A pass of the outer loop that follows a retirement starts from `frogStart`, if the process
is woken up with a non-zero status. -/
theorem frogRestart_retired {F : Type} (s : FrogLoop F) (w : Int) (b : FrogBirth F)
    (hw : w ≠ 0) :
    frogRestart s (.retired_reply w) b = some (frogStart none b) ∧
    frogRestart s (.retired_death w) b = some (frogStart none b) := by
  simp [frogRestart, hw, frogStart]

/-- C18: an iteration of the hop loop in which the random draw selects no movement leaves all
locals as they are (position, hop count, infected flag, both sums, all array entries), sends
nothing and evaluates neither birth nor infection nor death.  In an iteration after which the
loop goes on, the hop count increases by exactly 1 if the agent moved and not at all
otherwise. -/
theorem still_tick_changes_nothing {F : Type} (H : bio_model_h) (s : FrogLoop F)
    (t : FrogTick F) :
    (t.moves = false →
      frogIteration H s t = { events := [], next := .running s } ∧
      birthCalls (frogIteration H s t).events = 0 ∧
      diseaseCalls (frogIteration H s t).events = 0 ∧
      deathCalls (frogIteration H s t).events = 0) ∧
    (∀ s', (frogIteration H s t).next = .running s' →
      s'.my_frog.hops = s.my_frog.hops + (if t.moves = true then 1 else 0)) := by
  constructor
  · intro hm
    rw [frogIteration_still H s t hm]
    exact ⟨rfl, rfl, rfl, rfl⟩
  · intro s' hn
    rcases frogIteration_running H s s' t hn with ⟨hm, he⟩ | ⟨hm, _, h1, _, _⟩
    · rw [he, hm]; simp
    · rw [h1, hm]; simp

/-- Witness of C18: a tick without movement leaves a fresh frog as it is; a hop on the answers
`quietTick` takes an infected frog from hop count 700 to 701. -/
theorem still_tick_changes_nothing_witness :
    ({ quietTick with moves := false } : FrogTick Int).moves = false ∧
    frogIteration sampleHeader (frogInit 0 0 0) { quietTick with moves := false }
      = { events := [], next := .running (frogInit 0 0 0) } ∧
    (frogIteration sampleHeader (sampleFrog 700 1) quietTick).next
      = .running sampleInfectedAfter ∧
    sampleInfectedAfter.my_frog.hops =
      (sampleFrog 700 1).my_frog.hops + (if quietTick.moves = true then 1 else 0) :=
  ⟨by decide,
    ((still_tick_changes_nothing sampleHeader (frogInit 0 0 0)
      { quietTick with moves := false }).1 (by decide)).1,
    by decide,
    (still_tick_changes_nothing sampleHeader (sampleFrog 700 1) quietTick).2
      sampleInfectedAfter (by decide)⟩

/-- C20: in every state that the hop loop reaches from the state made by `newFrog`, the hop
count is not negative, so the array index `hops % 500` lies in `0..499`, inside the array
`infLevel`, which has 500 entries. -/
theorem window_index_in_bounds {F : Type} (H : bio_model_h) (x y : F) (infected : Int)
    (ts : List (FrogTick F)) (s : FrogLoop F)
    (h : frogAfter H (frogInit x y infected) ts = .running s) :
    0 ≤ s.my_frog.hops ∧
    0 ≤ infIndex s.my_frog.hops ∧ infIndex s.my_frog.hops < 500 ∧
    s.my_frog.infLevel.length = 500 ∧
    (infIndex s.my_frog.hops).toNat < s.my_frog.infLevel.length := by
  have hinv := windowInv_run H ts (frogInit x y infected) s [] (windowInv_init x y infected) h
  obtain ⟨i1, i2, _, _, _⟩ := hinv
  have e : infIndex s.my_frog.hops = (((([] : List Int) ++ hopLevels ts).length % 500 : Nat) : Int) := by
    rw [i1]; unfold infIndex
    rw [show ((500 : Int)) = ((500 : Nat) : Int) from rfl, ← Int.ofNat_tmod]
  refine ⟨by rw [i1]; exact Int.ofNat_nonneg _, ?_, ?_, i2, ?_⟩
  · rw [e]; exact Int.ofNat_nonneg _
  · rw [e]; omega
  · rw [e, i2, Int.toNat_ofNat]; omega

/-- Witness of C20: after the answers `sampleTicks` the hop count is 3 and the index is 3. -/
theorem window_index_in_bounds_witness :
    frogAfter sampleHeader (frogInit 0 0 0) sampleTicks = .running sampleAfter ∧
    infIndex sampleAfter.my_frog.hops = 3 ∧
    (0 ≤ sampleAfter.my_frog.hops ∧
      0 ≤ infIndex sampleAfter.my_frog.hops ∧ infIndex sampleAfter.my_frog.hops < 500 ∧
      sampleAfter.my_frog.infLevel.length = 500 ∧
      (infIndex sampleAfter.my_frog.hops).toNat < sampleAfter.my_frog.infLevel.length) :=
  ⟨by decide, by decide,
    window_index_in_bounds sampleHeader 0 0 0 sampleTicks sampleAfter (by decide)⟩

/-! ## Theorems: agent hop loop, the influx accumulator -/

/-- The influx accumulator after a completed hop: 0 if birth was evaluated in the iteration,
otherwise the old value plus the influx of the reply. -/
theorem frogIteration_running_influx {F : Type} (H : bio_model_h) (s s' : FrogLoop F)
    (t : FrogTick F) (hm : t.moves = true)
    (h : (frogIteration H s t).next = .running s') :
    s'.my_frog.hops = s.my_frog.hops + 1 ∧
    s'.my_frog.sum_popInflux =
      if birthDue s.my_frog.hops then 0 else s.my_frog.sum_popInflux + t.cell_values.1 := by
  by_cases hr : retireTest t.cell_values
  · rw [frogIteration_retire H s t hm hr] at h; cases h
  · rw [frogIteration_fold H s t hm hr] at h
    simp only at h
    split_ifs at h
    injection h with h
    subst h
    refine ⟨by simp [atDeathCheck_hops], ?_⟩
    simp only [atDeathCheck, diseaseStep, birthStep, foldReply]
    split_ifs <;> rfl

/-- What a birth evaluation is given and what it leaves: in an iteration that moves at a hop
count with the birth guard true and is not retired by its reply, `willGiveBirth` is called on
the accumulator plus the influx of the reply, and the accumulator is 0 afterwards, whatever
`willGiveBirth` answers. -/
theorem birth_evaluation_value {F : Type} (H : bio_model_h) (s : FrogLoop F) (t : FrogTick F)
    (hm : t.moves = true) (hr : ¬ retireTest t.cell_values) (hb : birthDue s.my_frog.hops) :
    FrogEvent.willGiveBirth (s.my_frog.sum_popInflux + t.cell_values.1)
      ∈ (frogIteration H s t).events ∧
    (atDeathCheck H s t).sum_popInflux = 0 := by
  constructor
  · rw [frogIteration_fold H s t hm hr]
    simp only [birthStep, foldReply, hb, if_true]
    simp
  · simp only [atDeathCheck, diseaseStep, birthStep, foldReply, hb, if_true]
    split_ifs <;> rfl

/-- Function `hopInfluxes` on a list with one more answer record in front. -/
theorem hopInfluxes_cons {F : Type} (t : FrogTick F) (ts : List (FrogTick F)) :
    hopInfluxes (t :: ts) = if t.moves = true then t.cell_values.1 :: hopInfluxes ts
      else hopInfluxes ts := by
  unfold hopInfluxes
  cases h : t.moves <;> simp [List.filter_cons, h]

/-- The influx values that the accumulator holds after one more completed hop. -/
theorem influx_window_snoc (L : List Int) (a : Int) :
    ((L ++ [a]).drop (influxStart (L.length + 1))).sum =
      if 300 ≤ L.length ∧ L.length % 300 = 0 then 0
      else (L.drop (influxStart L.length)).sum + a := by
  unfold influxStart
  by_cases hb : 300 ≤ L.length ∧ L.length % 300 = 0
  · have e : ¬ L.length + 1 ≤ 300 := by omega
    have e2 : 300 * ((L.length + 1 - 1) / 300) + 1 = (L ++ [a]).length := by
      rw [List.length_append, List.length_singleton]; omega
    rw [if_pos hb, if_neg e, e2, List.drop_length, List.sum_nil]
  · rw [if_neg hb]
    have e : (if L.length + 1 ≤ 300 then 0 else 300 * ((L.length + 1 - 1) / 300) + 1)
        = (if L.length ≤ 300 then 0 else 300 * ((L.length - 1) / 300) + 1) := by
      split_ifs <;> omega
    have hle : (if L.length ≤ 300 then 0 else 300 * ((L.length - 1) / 300) + 1) ≤ L.length := by
      split_ifs <;> omega
    rw [e, List.drop_append_of_le_length hle, List.sum_append]
    simp

/-- The influx accumulator along a run that is still running at its end: it holds the influx
values received since it was last empty. -/
theorem influx_run {F : Type} (H : bio_model_h) (ts : List (FrogTick F)) :
    ∀ (s s' : FrogLoop F) (L : List Int), s.my_frog.hops = (L.length : Int) →
      s.my_frog.sum_popInflux = (L.drop (influxStart L.length)).sum →
      frogAfter H s ts = .running s' →
      s'.my_frog.hops = ((L ++ hopInfluxes ts).length : Int) ∧
      s'.my_frog.sum_popInflux =
        ((L ++ hopInfluxes ts).drop (influxStart (L ++ hopInfluxes ts).length)).sum := by
  induction ts with
  | nil =>
    intro s s' L h1 h2 h
    simp only [frogAfter] at h
    injection h with h
    subst h
    simpa [hopInfluxes] using ⟨h1, h2⟩
  | cons t ts ih =>
    intro s s' L h1 h2 h
    simp only [frogAfter] at h
    cases hn : (frogIteration H s t).next with
    | running s1 =>
      rw [hn] at h
      cases hm : t.moves with
      | false =>
        rw [frogIteration_still H s t hm] at hn
        injection hn with hn
        subst hn
        have := ih s s' L h1 h2 h
        simpa [hopInfluxes_cons, hm] using this
      | true =>
        obtain ⟨g1, g2⟩ := frogIteration_running_influx H s s1 t hm hn
        have k1 : s1.my_frog.hops = ((L ++ [t.cell_values.1]).length : Int) := by
          rw [g1, h1]; simp
        have k2 : s1.my_frog.sum_popInflux =
            ((L ++ [t.cell_values.1]).drop (influxStart (L ++ [t.cell_values.1]).length)).sum := by
          rw [g2, List.length_append, List.length_singleton, influx_window_snoc, h1, h2]
          by_cases hb : 300 ≤ L.length ∧ L.length % 300 = 0
          · rw [if_pos ((birthDue_cast L.length).mpr hb), if_pos hb]
          · rw [if_neg (fun hd => hb ((birthDue_cast L.length).mp hd)), if_neg hb]
        have := ih s1 s' (L ++ [t.cell_values.1]) k1 k2 h
        simpa [hopInfluxes_cons, hm] using this
    | retired_reply w => rw [hn] at h; cases h
    | retired_death w => rw [hn] at h; cases h

/-- What every birth evaluation of a frog is given.  Let a fresh frog be still running after
the answers `ts`, and let the next iteration move, not be retired by its reply, and find the
birth guard true.  Then `willGiveBirth` is called on the sum of the influx values of the last
300 replies, the present one included, except at the first evaluation (hop count 300), where it
is the sum of all 301 replies received so far. -/
theorem birth_evaluation_window {F : Type} (H : bio_model_h) (x y : F) (infected : Int)
    (ts : List (FrogTick F)) (s : FrogLoop F) (t : FrogTick F)
    (h : frogAfter H (frogInit x y infected) ts = .running s)
    (hm : t.moves = true) (hr : ¬ retireTest t.cell_values) (hb : birthDue s.my_frog.hops) :
    FrogEvent.willGiveBirth
      (((hopInfluxes ts ++ [t.cell_values.1]).drop
        ((hopInfluxes ts ++ [t.cell_values.1]).length -
          (if s.my_frog.hops = 300 then 301 else 300))).sum)
      ∈ (frogIteration H s t).events := by
  obtain ⟨g1, g2⟩ := influx_run H ts (frogInit x y infected) s [] rfl rfl h
  rw [List.nil_append] at g1 g2
  have hev := (birth_evaluation_value H s t hm hr hb).1
  rw [g1] at hb
  have hb' := (birthDue_cast _).mp hb
  have e : ((hopInfluxes ts ++ [t.cell_values.1]).drop
        ((hopInfluxes ts ++ [t.cell_values.1]).length -
          (if s.my_frog.hops = 300 then 301 else 300))).sum
      = s.my_frog.sum_popInflux + t.cell_values.1 := by
    rw [g2, g1, List.length_append, List.length_singleton]
    unfold influxStart
    by_cases h3 : (hopInfluxes ts).length = 300
    · have c1 : (((hopInfluxes ts).length : Nat) : Int) = 300 := by rw [h3]; rfl
      rw [if_pos c1, if_pos (by omega)]
      have c2 : (hopInfluxes ts).length + 1 - 301 = 0 := by omega
      rw [c2, List.drop_zero, List.drop_zero, List.sum_append]
      simp
    · have c1 : ¬ (((hopInfluxes ts).length : Nat) : Int) = 300 := by omega
      rw [if_neg c1, if_neg (by omega)]
      have c2 : (hopInfluxes ts).length + 1 - 300 = 300 * (((hopInfluxes ts).length - 1) / 300) + 1 := by
        omega
      rw [c2, List.drop_append_of_le_length (by omega), List.sum_append]
      simp
  rw [e]
  exact hev

/-- The influx values of `n` hops on the answers `quietTick` are `n` times the value 1. -/
theorem hopInfluxes_quiet (n : Nat) :
    hopInfluxes (List.replicate n quietTick) = List.replicate n 1 := by
  induction n with
  | zero => rfl
  | succ n ih =>
    rw [List.replicate_succ, hopInfluxes_cons, ih, List.replicate_succ]
    rfl

/-- C17 (the code at the failing input): a fresh frog makes 301 hops and every reply carries the
influx 1.  When the birth guard is true for the first time, in the 301st hop at hop count 300,
`willGiveBirth` is called on the accumulator value 301, the sum over all 301 replies, while
the 300 most recent replies sum to 300. -/
theorem first_birth_evaluation_sums_301_replies :
    ∃ s : FrogLoop Int,
      frogAfter sampleHeader (frogInit 0 0 0) (List.replicate 300 quietTick) = .running s ∧
      s.my_frog.hops = 300 ∧
      hopInfluxes (List.replicate 300 quietTick ++ [quietTick]) = List.replicate 301 1 ∧
      FrogEvent.willGiveBirth 301 ∈ (frogIteration sampleHeader s quietTick).events ∧
      ((List.replicate 301 (1 : Int)).drop (301 - 300)).sum = 300 := by
  obtain ⟨s, h1, h2, _⟩ := quietTick_run sampleHeader 300 (frogInit 0 0 0) rfl
  have hh : s.my_frog.hops = 300 := by rw [h2]; rfl
  obtain ⟨_, g2⟩ := influx_run sampleHeader _ (frogInit 0 0 0) s [] rfl rfl h1
  rw [List.nil_append, hopInfluxes_quiet, List.length_replicate,
    show influxStart 300 = 0 from rfl, List.drop_zero, List.sum_replicate] at g2
  have hb : birthDue s.my_frog.hops := by rw [hh]; decide
  have hev := (birth_evaluation_value sampleHeader s quietTick rfl (by decide) hb).1
  rw [g2] at hev
  refine ⟨s, h1, hh, ?_, hev, ?_⟩
  · rw [← List.replicate_succ', hopInfluxes_quiet]
  · rw [List.drop_replicate, List.sum_replicate]
    rfl

/-! ## Theorems: coordinator bootstrapping -/

/-- A projection that keeps part of each action of a loop keeps that part of each iteration. -/
theorem filterMap_forLoop {α β : Type} (n : Nat) (body : Nat → List α) (g : α → Option β)
    (h : Nat → β) (hb : ∀ i, (body i).filterMap g = [h i]) :
    ((List.range n).flatMap body).filterMap g = (List.range n).map h := by
  induction n with
  | zero => rfl
  | succ n ih =>
    rw [List.range_succ, List.flatMap_append, List.filterMap_append, ih, List.map_append,
      List.flatMap_cons, List.flatMap_nil, List.append_nil, hb]
    rfl

/-- A projection that keeps nothing of any action of a loop keeps nothing. -/
theorem filterMap_forLoop_nil {α β : Type} (n : Nat) (body : Nat → List α) (g : α → Option β)
    (hb : ∀ i, (body i).filterMap g = []) :
    ((List.range n).flatMap body).filterMap g = [] := by
  induction n with
  | zero => rfl
  | succ n ih =>
    rw [List.range_succ, List.flatMap_append, List.filterMap_append, ih,
      List.flatMap_cons, List.flatMap_nil, List.append_nil, hb]
    rfl

/-- Among the first `n` loop indices, `min k n` are below `k`. -/
theorem count_below (n : Nat) (k : Int) (hk : 0 ≤ k) :
    (((List.range n).filter (fun (i : Nat) => decide ((i : Int) < k))).length : Int)
      = min k (n : Int) := by
  induction n with
  | zero => simp [hk]
  | succ n ih =>
    rw [List.range_succ, List.filter_append, List.length_append]
    push_cast
    rw [ih]
    by_cases hn : (n : Int) < k
    · simp [hn]; omega
    · simp [hn]; omega

/-- C13: for non-negative `NUM_OF_CELLS`, `INIT_FROGS` and `INIT_INFECTED`, the bootstrapping
of `masterCode` calls `startWorkerProcess()` exactly `NUM_OF_CELLS + INIT_FROGS` times, the
first `NUM_OF_CELLS` times in the loop that starts the cells and the next `INIT_FROGS` times in
the loop that starts the frogs; the messages it sends are exactly one per frog, to the process
just started for frog `i` (counted from 0), with tag `INF_TAG` and the value 1 if
`i < INIT_INFECTED` and 0 otherwise; so `min(INIT_INFECTED, INIT_FROGS)` frogs get the
value 1. -/
theorem bootstrap_spawns_and_flags (H : bio_model_h) (G : Globals) (pid : Nat → Int)
    (hN : 0 ≤ G.NUM_OF_CELLS) (hF : 0 ≤ G.INIT_FROGS) (hI : 0 ≤ G.INIT_INFECTED) :
    ((spawned (bootstrap H G pid)).length : Int) = G.NUM_OF_CELLS + G.INIT_FROGS ∧
    spawned (bootstrap H G pid) =
      (List.range G.NUM_OF_CELLS.toNat).map pid ++
        (List.range G.INIT_FROGS.toNat).map (fun (i : Nat) => pid (G.NUM_OF_CELLS.toNat + i)) ∧
    spawned (forLoop G.NUM_OF_CELLS (bootCellBody pid)) =
      (List.range G.NUM_OF_CELLS.toNat).map pid ∧
    spawned (forLoop G.INIT_FROGS (bootFrogBody H G pid)) =
      (List.range G.INIT_FROGS.toNat).map (fun (i : Nat) => pid (G.NUM_OF_CELLS.toNat + i)) ∧
    bootSends (bootstrap H G pid) =
      (List.range G.INIT_FROGS.toNat).map
        (fun (i : Nat) =>
          ((if (i : Int) < G.INIT_INFECTED then (1 : Int) else 0),
            pid (G.NUM_OF_CELLS.toNat + i), H.INF_TAG)) ∧
    (((bootSends (bootstrap H G pid)).filter (fun m => decide (m.1 = 1))).length : Int)
      = min G.INIT_INFECTED G.INIT_FROGS := by
  have c1 : spawned (forLoop G.NUM_OF_CELLS (bootCellBody pid)) =
      (List.range G.NUM_OF_CELLS.toNat).map pid :=
    filterMap_forLoop _ _ _ _ (fun _ => rfl)
  have c2 : spawned (forLoop G.INIT_FROGS (bootFrogBody H G pid)) =
      (List.range G.INIT_FROGS.toNat).map (fun (i : Nat) => pid (G.NUM_OF_CELLS.toNat + i)) :=
    filterMap_forLoop _ _ _ _ (fun _ => rfl)
  have c3 : bootSends (forLoop G.NUM_OF_CELLS (bootCellBody pid)) = [] :=
    filterMap_forLoop_nil _ _ _ (fun _ => rfl)
  have c4 : bootSends (forLoop G.INIT_FROGS (bootFrogBody H G pid)) =
      (List.range G.INIT_FROGS.toNat).map
        (fun (i : Nat) =>
          ((if (i : Int) < G.INIT_INFECTED then (1 : Int) else 0),
            pid (G.NUM_OF_CELLS.toNat + i), H.INF_TAG)) :=
    filterMap_forLoop _ _ _ _ (fun _ => rfl)
  have c5 : spawned (bootstrap H G pid) =
      (List.range G.NUM_OF_CELLS.toNat).map pid ++
        (List.range G.INIT_FROGS.toNat).map (fun (i : Nat) => pid (G.NUM_OF_CELLS.toNat + i)) := by
    unfold bootstrap spawned
    rw [List.filterMap_append]
    exact congr (congrArg _ c1) c2
  have c6 : bootSends (bootstrap H G pid) =
      (List.range G.INIT_FROGS.toNat).map
        (fun (i : Nat) =>
          ((if (i : Int) < G.INIT_INFECTED then (1 : Int) else 0),
            pid (G.NUM_OF_CELLS.toNat + i), H.INF_TAG)) := by
    unfold bootstrap bootSends
    rw [List.filterMap_append]
    have c3' := c3
    have c4' := c4
    unfold bootSends at c3' c4'
    rw [c3', c4', List.nil_append]
  refine ⟨?_, c5, c1, c2, c6, ?_⟩
  · rw [c5, List.length_append, List.length_map, List.length_map, List.length_range,
      List.length_range]
    push_cast
    rw [Int.toNat_of_nonneg hN, Int.toNat_of_nonneg hF]
  · rw [c6, List.filter_map, List.length_map]
    have e : ((fun (m : Int × Int × Int) => decide (m.1 = 1)) ∘
        (fun (i : Nat) =>
          ((if (i : Int) < G.INIT_INFECTED then (1 : Int) else 0),
            pid (G.NUM_OF_CELLS.toNat + i), H.INF_TAG)))
        = (fun (i : Nat) => decide ((i : Int) < G.INIT_INFECTED)) := by
      funext i
      by_cases hi : (i : Int) < G.INIT_INFECTED <;> simp [hi]
    rw [e, count_below _ _ hI, Int.toNat_of_nonneg hF]

/-- Witness of C13: with 2 cells, 3 frogs and 1 infected frog, in a pool that hands out the
ranks 1, 2, 3, .., five processes are started and the frogs on the ranks 3, 4 and 5 are sent the
flags 1, 0 and 0. -/
theorem bootstrap_spawns_and_flags_witness :
    (0 : Int) ≤ sampleGlobals.NUM_OF_CELLS ∧ (0 : Int) ≤ sampleGlobals.INIT_FROGS ∧
    (0 : Int) ≤ sampleGlobals.INIT_INFECTED ∧
    spawned (bootstrap sampleHeader sampleGlobals samplePid) = [1, 2, 3, 4, 5] ∧
    bootSends (bootstrap sampleHeader sampleGlobals samplePid)
      = [(1, 3, 11), (0, 4, 11), (0, 5, 11)] ∧
    ((spawned (bootstrap sampleHeader sampleGlobals samplePid)).length : Int)
      = sampleGlobals.NUM_OF_CELLS + sampleGlobals.INIT_FROGS ∧
    (((bootSends (bootstrap sampleHeader sampleGlobals samplePid)).filter
        (fun m => decide (m.1 = 1))).length : Int)
      = min sampleGlobals.INIT_INFECTED sampleGlobals.INIT_FROGS :=
  ⟨by decide, by decide, by decide, by decide, by decide,
    (bootstrap_spawns_and_flags sampleHeader sampleGlobals samplePid
      (by decide) (by decide) (by decide)).1,
    (bootstrap_spawns_and_flags sampleHeader sampleGlobals samplePid
      (by decide) (by decide) (by decide)).2.2.2.2.2⟩

/-! ## Theorems: coordinator loop with `YEARS = 0` -/

/-- With `YEARS = 0` and the year counter 0 at the head of an iteration, the iteration
broadcasts `STOP_FROGS` if the year timer does not fire in it, and sends no `STOP_FROGS` if the
timer fires, because the counter is 1 when it is compared with `YEARS`. -/
theorem years_zero_first_iteration (H : bio_model_h) (G : Globals) (s : MasterLoop)
    (t : MasterTick) (hne : H.STOP_FROGS ≠ H.PRINT_CELL) (hy : G.YEARS = 0)
    (h0 : s.curr_year = 0) :
    yearAtCheck H G s t = (if t.now_year ≥ s.year_time then 1 else 0) ∧
    sendsOf H.STOP_FROGS (masterIteration H G s t).events =
      if t.now_year ≥ s.year_time then [] else broadcast H G H.STOP_FROGS := by
  have e : yearAtCheck H G s t = (if t.now_year ≥ s.year_time then 1 else 0) := by
    unfold yearAtCheck yearStep
    split_ifs <;> simp [h0]
  refine ⟨e, ?_⟩
  rw [sendsOf_masterIteration H G s t hne, e, hy]
  split_ifs <;> simp_all

/-- With `YEARS = 0`, a run of the loop of `masterCode` whose year timer fires in the first
iteration never sends `STOP_FROGS`. -/
theorem years_zero_never_stops (H : bio_model_h) (G : Globals) (s : MasterLoop)
    (t : MasterTick) (ts : List MasterTick) (hne : H.STOP_FROGS ≠ H.PRINT_CELL)
    (hy : G.YEARS = 0) (h0 : s.curr_year = 0) (hf : t.now_year ≥ s.year_time) :
    ∀ r ∈ masterRun H G s (t :: ts), sendsOf H.STOP_FROGS r.events = [] := by
  intro r hr
  obtain ⟨e, hs⟩ := years_zero_first_iteration H G s t hne hy h0
  rw [if_pos hf] at e hs
  simp only [masterRun] at hr
  split_ifs at hr with hc
  · rw [List.mem_cons] at hr
    rcases hr with hr | hr
    · subst hr; exact hs
    · cases hn : (masterIteration H G s t).next with
      | running s1 =>
        rw [hn] at hr
        obtain ⟨a, he⟩ := masterRun_records H G ts s1 r hr
        have h1 := masterIteration_running H G s s1 t hn
        have h2 := atSafeguard_year H G s t
        have h3 := yearAtCheck_ge H G r.pre r.tick
        rw [← h1, e, hy, if_neg (by decide)] at h2
        have hgt : yearAtCheck H G r.pre r.tick ≠ G.YEARS := by omega
        rw [he, sendsOf_masterIteration H G r.pre r.tick hne, if_neg hgt]
      | left_break s1 => rw [hn] at hr; simp at hr
      | aborted => rw [hn] at hr; simp at hr
  · simp at hr

/-- C14 (the code at the failing input): `YEARS = 0`, 2 cells, 3 frogs alive, and the loop is
entered with the year timer set to time 2.  If the first iteration reads the clock at time 2 or
later, the year counter is 1 at the test `curr_year == YEARS`, and neither the first iteration
nor any later one sends `STOP_FROGS`, whatever answers follow.  If the first iteration reads
the clock at time 0, it sends `STOP_FROGS` to the ranks 1 and 2. -/
theorem years_zero_timer_fires_first :
    zeroYearGlobals.YEARS = 0 ∧
    getAliveFrogs zeroYearGlobals (sampleMasterTick 5 2).workers_cond > 0 ∧
    (sampleMasterTick 5 2).now_year ≥ (masterInit 0 0).year_time ∧
    yearAtCheck sampleHeader zeroYearGlobals (masterInit 0 0) (sampleMasterTick 5 2) = 1 ∧
    (masterRun sampleHeader zeroYearGlobals (masterInit 0 0)
        [sampleMasterTick 5 2, sampleMasterTick 5 4, sampleMasterTick 5 6]).map
      (fun r => sendsOf sampleHeader.STOP_FROGS r.events) = [[], [], []] ∧
    (∀ ts : List MasterTick,
      ((masterRun sampleHeader zeroYearGlobals (masterInit 0 0)
          (sampleMasterTick 5 2 :: ts)).map
        (fun r => sendsOf sampleHeader.STOP_FROGS r.events)).all (fun l => l.isEmpty) = true) ∧
    sendsOf sampleHeader.STOP_FROGS
        (masterIteration sampleHeader zeroYearGlobals (masterInit 0 0)
          (sampleMasterTick 5 0)).events
      = [.send (-4) 1 10, .send (-4) 2 10] := by
  refine ⟨by decide, by decide, by decide, by decide, by decide, ?_, by decide⟩
  intro ts
  rw [List.all_eq_true]
  intro l hl
  obtain ⟨r, hr, rfl⟩ := List.mem_map.mp hl
  rw [years_zero_never_stops sampleHeader zeroYearGlobals (masterInit 0 0)
    (sampleMasterTick 5 2) ts (by decide) rfl rfl (by decide) r hr]
  rfl

/-! ## Theorems: agent hop loop, progress of a run -/

/-- An iteration that moves, is not retired by its reply and gets a negative answer of
`willDie` (if it asks) keeps the loop running, with one more hop counted and an infected flag
that was set kept. -/
theorem frogIteration_calm {F : Type} (H : bio_model_h) (s : FrogLoop F) (t : FrogTick F)
    (hm : t.moves = true) (hr : ¬ retireTest t.cell_values) (hd : t.die = false) :
    ∃ s', (frogIteration H s t).next = .running s' ∧
      s'.my_frog.hops = s.my_frog.hops + 1 ∧
      (s.my_frog.infected ≠ 0 → s'.my_frog.infected = s.my_frog.infected) := by
  rw [frogIteration_fold H s t hm hr]
  refine ⟨_, if_neg ?_, ?_, ?_⟩
  · rintro ⟨_, hdie⟩
    rw [hd] at hdie
    cases hdie
  · simp [atDeathCheck_hops]
  · intro hi
    exact atDeathCheck_infected H s t hi

/-- Progress of the hop loop: on answers in which no reply to a hop passes the retire test and
no answer of `willDie` is positive, the loop is still running after all of them, whatever their
number; every hop has been counted and an infected flag that was set is kept. -/
theorem frogAfter_calm {F : Type} (H : bio_model_h) (ts : List (FrogTick F)) :
    ∀ s : FrogLoop F,
      (∀ t ∈ ts, t.moves = true → ¬ retireTest t.cell_values ∧ t.die = false) →
      ∃ s', frogAfter H s ts = .running s' ∧
        s'.my_frog.hops = s.my_frog.hops + ((hopLevels ts).length : Int) ∧
        (s.my_frog.infected ≠ 0 → s'.my_frog.infected = s.my_frog.infected) := by
  induction ts with
  | nil => intro s _; exact ⟨s, rfl, by simp [hopLevels], fun _ => rfl⟩
  | cons t ts ih =>
    intro s hq
    have hq' : ∀ t' ∈ ts, t'.moves = true → ¬ retireTest t'.cell_values ∧ t'.die = false :=
      fun t' ht' => hq t' (List.mem_cons_of_mem _ ht')
    cases hm : t.moves with
    | false =>
      obtain ⟨s', a, b, c⟩ := ih s hq'
      refine ⟨s', ?_, ?_, c⟩
      · simp only [frogAfter, frogIteration_still H s t hm]
        exact a
      · rw [b, hopLevels_cons]
        simp [hm]
    | true =>
      obtain ⟨hr, hd⟩ := hq t (List.mem_cons_self _ _) hm
      obtain ⟨s1, e1, e2, e3⟩ := frogIteration_calm H s t hm hr hd
      obtain ⟨s', a, b, c⟩ := ih s1 hq'
      refine ⟨s', ?_, ?_, ?_⟩
      · simp only [frogAfter, e1]
        exact a
      · rw [b, e2, hopLevels_cons]
        simp [hm]
        ring
      · intro hi
        have h1 := e3 hi
        rw [c (by rw [h1]; exact hi), h1]

/-- The infection levels of `n` hops on the answers `quietTick` are `n` times the value 0. -/
theorem hopLevels_quiet (n : Nat) :
    hopLevels (List.replicate n quietTick) = List.replicate n 0 := by
  induction n with
  | zero => rfl
  | succ n ih =>
    rw [List.replicate_succ, hopLevels_cons, ih, List.replicate_succ]
    rfl

/-- The infection levels of `n` hops on the answers `infectedTick` are `n` times the
value 1. -/
theorem hopLevels_infected (n : Nat) :
    hopLevels (List.replicate n infectedTick) = List.replicate n 1 := by
  induction n with
  | zero => rfl
  | succ n ih =>
    rw [List.replicate_succ, hopLevels_cons, ih, List.replicate_succ]
    rfl

/-- C5: (1) an iteration of the hop loop calls `willGiveBirth` exactly once if it moves, is not
retired by its reply and is at a hop count `h` with `h >= 300` and `h % 300 == 0`, and not at
all otherwise.  (2) On answers in which no reply passes the retire test and no answer of
`willDie` is positive, a fresh frog is still running after all of them, however many they are.
(3) In every run from a fresh frog that is still running at its end, with `m` hops made, the
hop count is `m`, the iterations that move are at the hop counts `0, 1, .., m-1`, each exactly
once and in this order, the number of `willGiveBirth` calls over the whole run is `(m-1)/300`
(rounded down), and they are made at the hop counts `300, 600, ..`, whatever the replies, the
random decisions and the ticks without movement are. -/
theorem birth_once_per_300_hops {F : Type} (H : bio_model_h) (x y : F) (infected : Int)
    (ts : List (FrogTick F)) :
    (∀ (s : FrogLoop F) (t : FrogTick F),
      birthCalls (frogIteration H s t).events =
        if t.moves = true ∧ ¬ retireTest t.cell_values ∧ birthDue s.my_frog.hops
        then 1 else 0) ∧
    ((∀ t ∈ ts, t.moves = true → ¬ retireTest t.cell_values ∧ t.die = false) →
      ∃ s, frogAfter H (frogInit x y infected) ts = .running s) ∧
    (∀ s : FrogLoop F, frogAfter H (frogInit x y infected) ts = .running s →
      s.my_frog.hops = ((hopLevels ts).length : Int) ∧
      hopCounts (frogRun H (frogInit x y infected) ts) =
        (List.range (hopLevels ts).length).map (fun (j : Nat) => (j : Int)) ∧
      (∀ r ∈ frogRun H (frogInit x y infected) ts,
        birthCalls r.events =
          if r.tick.moves = true ∧ birthDue r.pre.my_frog.hops then 1 else 0) ∧
      birthTotal (frogRun H (frogInit x y infected) ts) = ((hopLevels ts).length - 1) / 300 ∧
      birthHops (frogRun H (frogInit x y infected) ts) =
        (List.range (((hopLevels ts).length - 1) / 300)).map
          (fun (q : Nat) => 300 * ((q : Int) + 1))) := by
  refine ⟨fun s t => birthCalls_frogIteration H s t, ?_, ?_⟩
  · intro hq
    obtain ⟨s, hs, _⟩ := frogAfter_calm H ts (frogInit x y infected) hq
    exact ⟨s, hs⟩
  · intro s h
    obtain ⟨a, b, c⟩ := birth_run H ts (frogInit x y infected) s 0 rfl h
    rw [← List.range_eq_range'] at a b c
    rw [filter_range_300] at b c
    have hinv := windowInv_run H ts (frogInit x y infected) s [] (windowInv_init x y infected) h
    rw [List.nil_append] at hinv
    refine ⟨hinv.1, a, ?_, ?_, ?_⟩
    · intro r hr
      obtain ⟨he, s1, hs1⟩ := frogRun_records H ts (frogInit x y infected) s h r hr
      rw [he, birthCalls_frogIteration]
      rcases frogIteration_running H r.pre s1 r.tick hs1 with ⟨hm, _⟩ | ⟨hm, hret, _⟩
      · simp [hm]
      · simp [hm, hret]
    · rw [c, List.length_map, List.length_range]
    · rw [b, List.map_map]
      apply List.map_congr_left
      intro q _
      simp

/-- Witness of C5: 601 hops on the answers `quietTick` (reply `(1, 0)`, all random decisions
negative) leave a fresh frog running at hop count 601; the hops are at the hop counts
`0..600`, and `willGiveBirth` is called twice, at the hop counts 300 and 600. -/
theorem birth_once_per_300_hops_witness :
    (∀ t ∈ List.replicate 601 quietTick,
      t.moves = true → ¬ retireTest t.cell_values ∧ t.die = false) ∧
    ∃ s : FrogLoop Int,
      frogAfter sampleHeader (frogInit 0 0 0) (List.replicate 601 quietTick) = .running s ∧
      s.my_frog.hops = 601 ∧
      hopCounts (frogRun sampleHeader (frogInit 0 0 0) (List.replicate 601 quietTick)) =
        (List.range 601).map (fun (j : Nat) => (j : Int)) ∧
      birthTotal (frogRun sampleHeader (frogInit 0 0 0) (List.replicate 601 quietTick)) = 2 ∧
      birthHops (frogRun sampleHeader (frogInit 0 0 0) (List.replicate 601 quietTick))
        = [300, 600] := by
  have hq : ∀ t ∈ List.replicate 601 quietTick,
      t.moves = true → ¬ retireTest t.cell_values ∧ t.die = false := by
    intro t ht _
    rw [List.eq_of_mem_replicate ht]
    exact ⟨by decide, rfl⟩
  obtain ⟨s, hs⟩ :=
    (birth_once_per_300_hops sampleHeader 0 0 0 (List.replicate 601 quietTick)).2.1 hq
  obtain ⟨c0, c1, _, c3, c4⟩ :=
    (birth_once_per_300_hops sampleHeader 0 0 0 (List.replicate 601 quietTick)).2.2 s hs
  have hl : (hopLevels (List.replicate 601 quietTick)).length = 601 := by
    rw [hopLevels_quiet, List.length_replicate]
  rw [hl] at c0 c1 c3 c4
  exact ⟨hq, s, hs, c0, c1, c3, c4⟩

/-! ## Theorems: agent hop loop, the replies an aggregator sends -/

/-- Every reply that `cellCode` sends, started from zero counters and receiving only flags 0 or
1 and commands, is the pair `(-1, -1)` or a pair `(p, q)` with `p >= 1` and `0 <= q <= p`. -/
theorem cellRun_reply_shape (H : bio_model_h) (rank : Int) (ms : List CellMsg)
    (hms : ∀ m ∈ ms,
      m.frog_infection = 0 ∨ m.frog_infection = 1 ∨ ¬ isReport H m.frog_infection) :
    ∀ r ∈ cellRun H rank cellInit ms, ∀ p ∈ cellReplies r.events,
      p = (-1, -1) ∨ (1 ≤ p.1 ∧ 0 ≤ p.2 ∧ p.2 ≤ p.1) := by
  intro r hr p hp
  obtain ⟨⟨hi1, hi2⟩, hmsg, he⟩ :=
    cellRun_counters H rank ms cellInit hms (by decide) r hr
  rw [he, cellReplies_cellIteration] at hp
  split_ifs at hp with h1 h2
  · rw [List.mem_singleton] at hp
    exact Or.inl hp
  · rw [List.mem_singleton] at hp
    subst hp
    have hv : r.msg.frog_infection = 0 ∨ r.msg.frog_infection = 1 := by
      rcases hmsg with h | h | h
      · exact Or.inl h
      · exact Or.inr h
      · exact absurd h1 h
    right
    simp only []
    omega
  · simp at hp

/-- C4 (as stated) fails: a root frog that was told it is infected makes 700 hops, each
answered with `(1, 1)`, the reply of an aggregator with zero counters to a report with flag 1.
It is then at hop count 700 and still infected.  Its next hop is answered with `(1, 1)` again,
which is not the pair `(-1, -1)`; the reply is folded in, `willDie` answers yes, and the agent
does not keep running: it leaves the loop through the death path. -/
theorem reply_folded_agent_retires_counterexample :
    ∃ s : FrogLoop Int,
      frogAfter sampleHeader (frogInit 0 0 1) (List.replicate 700 infectedTick) = .running s ∧
      s.my_frog.hops = 700 ∧ s.my_frog.infected = 1 ∧
      cellReplies (cellIteration sampleHeader 3 cellInit
        { frog_infection := 1, source := 20 }).events = [(1, 1)] ∧
      dyingTick.moves = true ∧ dyingTick.cell_values = (1, 1) ∧
      ((1 : Int), (1 : Int)) ≠ (-1, -1) ∧
      (frogIteration sampleHeader s dyingTick).next = .retired_death 0 := by
  have hq : ∀ t ∈ List.replicate 700 infectedTick,
      t.moves = true → ¬ retireTest t.cell_values ∧ t.die = false := by
    intro t ht _
    rw [List.eq_of_mem_replicate ht]
    exact ⟨by decide, rfl⟩
  obtain ⟨s, hs, hh, hi⟩ := frogAfter_calm sampleHeader _ (frogInit 0 0 1) hq
  have hh' : s.my_frog.hops = 700 := by
    rw [hh, hopLevels_infected, List.length_replicate]; rfl
  have hi' : s.my_frog.infected = 1 := hi (by decide)
  refine ⟨s, hs, hh', hi', by decide, rfl, rfl, by decide, ?_⟩
  have hinf : (atDeathCheck sampleHeader s dyingTick).infected = 1 := by
    rw [atDeathCheck_infected sampleHeader s dyingTick (by rw [hi']; decide), hi']
  rw [frogIteration_fold sampleHeader s dyingTick rfl (by decide)]
  simp only [atDeathCheck_hops, hh', hinf]
  rw [if_pos ⟨by decide, rfl⟩]
  rfl

/-- C4 (amended): let `(a, b)` be a reply that an aggregator sends (started from zero counters
and receiving only flags 0 or 1 and commands) and let an agent receive it after a hop report.
The agent retires on that reply (it frees its frog and parks) if and only if
`(a, b) = (-1, -1)`.  Every other pair is folded into the frog, and the agent then keeps
running, with one more hop counted, unless the death evaluation of the same iteration retires
it. -/
theorem retire_on_reply_iff_sentinel (H : bio_model_h) (rank : Int) (ms : List CellMsg)
    (hms : ∀ m ∈ ms,
      m.frog_infection = 0 ∨ m.frog_infection = 1 ∨ ¬ isReport H m.frog_infection) :
    ∀ r ∈ cellRun H rank cellInit ms, ∀ p ∈ cellReplies r.events,
      ∀ (F : Type) (s : FrogLoop F) (t : FrogTick F), t.moves = true → t.cell_values = p →
        ((∃ w, (frogIteration H s t).next = .retired_reply w) ↔ p = (-1, -1)) ∧
        (p = (-1, -1) →
          frogIteration H s t =
            { events := [.frogHop s.start_pos t.hop_pos,
                         .send_infected s.my_frog.infected t.cellnum H.HOP_TAG,
                         .recv_cell_values t.cellnum t.cell_values.1 t.cell_values.2,
                         .free, .workerSleep],
              next := .retired_reply t.sleep }) ∧
        (p ≠ (-1, -1) →
          (frogIteration H s t).next =
            if deathDue (atDeathCheck H s t).hops (atDeathCheck H s t).infected ∧ t.die = true
            then .retired_death t.sleep
            else
              .running
                { start_pos := (atDeathCheck H s t).pos,
                  my_frog :=
                    { atDeathCheck H s t with hops := (atDeathCheck H s t).hops + 1 } }) := by
  intro r hr p hp F s t hm hcv
  have hshape := cellRun_reply_shape H rank ms hms r hr p hp
  have htest : retireTest t.cell_values ↔ p = (-1, -1) := by
    rw [hcv]
    constructor
    · intro hret
      rcases hshape with h | ⟨h1, h2, _⟩
      · exact h
      · unfold retireTest at hret
        omega
    · intro h
      rw [h]
      decide
  refine ⟨?_, ?_, ?_⟩
  · rw [retired_reply_iff H s t hm, htest]
  · intro h
    exact frogIteration_retire H s t hm (htest.mpr h)
  · intro h
    rw [frogIteration_fold H s t hm (fun hret => h (htest.mp hret))]

/-- Witness of C4 (amended): a fresh aggregator that receives a report with flag 1, then
`STOP_FROGS`, then a report with flag 0, replies `(1, 1)` in its first iteration and
`(-1, -1)` in its third.  A fresh agent given `(-1, -1)` retires on it; an infected agent at hop
count 700 given `(1, 1)` folds it in and then goes the way the death evaluation decides. -/
theorem retire_on_reply_iff_sentinel_witness :
    (∀ m ∈ ([⟨1, 20⟩, ⟨sampleHeader.STOP_FROGS, 0⟩, ⟨0, 21⟩] : List CellMsg),
      m.frog_infection = 0 ∨ m.frog_infection = 1 ∨
        ¬ isReport sampleHeader m.frog_infection) ∧
    (cellRun sampleHeader 3 cellInit
        [⟨1, 20⟩, ⟨sampleHeader.STOP_FROGS, 0⟩, ⟨0, 21⟩]).map (fun r => cellReplies r.events)
      = [[(1, 1)], [], [(-1, -1)]] ∧
    (replyTick (-1, -1)).moves = true ∧
    ((∃ w, (frogIteration sampleHeader (frogInit 0 0 0) (replyTick (-1, -1))).next
        = .retired_reply w) ↔ (((-1 : Int), (-1 : Int)) = (-1, -1))) ∧
    (frogIteration sampleHeader (frogInit 0 0 0) (replyTick (-1, -1))).next
      = .retired_reply 0 ∧
    dyingTick.moves = true ∧
    (((1 : Int), (1 : Int)) ≠ (-1, -1) →
      (frogIteration sampleHeader (sampleFrog 700 1) dyingTick).next =
        if deathDue (atDeathCheck sampleHeader (sampleFrog 700 1) dyingTick).hops
            (atDeathCheck sampleHeader (sampleFrog 700 1) dyingTick).infected ∧
            dyingTick.die = true
        then .retired_death dyingTick.sleep
        else
          .running
            { start_pos := (atDeathCheck sampleHeader (sampleFrog 700 1) dyingTick).pos,
              my_frog :=
                { atDeathCheck sampleHeader (sampleFrog 700 1) dyingTick with
                  hops := (atDeathCheck sampleHeader (sampleFrog 700 1) dyingTick).hops + 1 } }) ∧
    (frogIteration sampleHeader (sampleFrog 700 1) dyingTick).next = .retired_death 0 :=
  ⟨by decide, by decide, by decide,
    (retire_on_reply_iff_sentinel sampleHeader 3
      [⟨1, 20⟩, ⟨sampleHeader.STOP_FROGS, 0⟩, ⟨0, 21⟩] (by decide)
      { pre := { my_cell := { populationInflux := 1, infectionLevel := 1 }, stop_frog := 1 },
        msg := { frog_infection := 0, source := 21 },
        events := [.send (-1) (-1) 21 10] }
      (by decide) (-1, -1) (by decide) Int (frogInit 0 0 0) (replyTick (-1, -1))
      (by decide) rfl).1,
    by decide, by decide,
    (retire_on_reply_iff_sentinel sampleHeader 3
      [⟨1, 20⟩, ⟨sampleHeader.STOP_FROGS, 0⟩, ⟨0, 21⟩] (by decide)
      { pre := cellInit,
        msg := { frog_infection := 1, source := 20 },
        events := [.send 1 1 20 10] }
      (by decide) (1, 1) (by decide) Int (sampleFrog 700 1) dyingTick
      (by decide) rfl).2.2,
    by decide⟩

end BioModel
